import Mathlib

/-!
Shallow embedding of the turn-orchestration engine of the Anthropic flows app
(`src/blocks/utils.ts` and the `generateMessage` block).

Modelling conventions:
* The durable key-value store (`kv.block`) is an association list from keys to
  values.  Keys are built by string concatenation in the source (template
  literals); they are modelled as `List Char` built with `++`, with the
  `${turn}` interpolation of a natural number rendered in decimal by
  `natChars` (a fuel-based structural recursion so that everything reduces).
* The timer subsystem (`timers.set` / `timers.unset`) is a list of active
  timer identifiers plus a fresh-id counter.
* Network calls to the model (`streamMessage` / `stream.finalMessage()`) are
  modelled by an oracle: a list of outcomes (a final message, or a thrown
  error) consumed one per attempt.  An exhausted oracle behaves as a thrown
  network error.
* Events (`events.emit`, `events.createPending`, `events.updatePending`,
  `events.cancelPending`) and tool dispatch (`messaging.sendToBlocks`) are
  recorded in trace fields of the environment.  `continueCalls` is a ghost
  counter incremented at each entry of `continueTurn`, used to observe turn
  resumption.
* A thrown JS exception is an `Except.error` carrying the error message.
  In an `async` function a `return f()` without `await` is NOT protected by
  an enclosing `try`/`catch`; the embedding reflects this (in particular
  `executeTurn`'s catch block does not see errors raised inside
  `handleModelResponse`).
* Schema validation (`jsonschema`'s `Validator`) is abstracted: a schema is a
  boolean predicate on the (opaque, stringly modelled) tool input.
-/

/-- One content block of a model message (`Anthropic... content` entries). -/
inductive Block where
  | text (t : String)
  | toolUse (id : String) (name : String) (input : String)
  | thinking (t : String)
  | toolResult (toolUseId : String) (content : String)
  | other (tag : String)

def Block.isThinking : Block → Bool
  | .thinking _ => true
  | _ => false

/-- Message content: a plain string or an array of content blocks. -/
inductive MsgContent where
  | str (s : String)
  | blocks (bs : List Block)

structure Message where
  role : String
  content : MsgContent

/-- A JSON schema, abstracted to its validation predicate on tool inputs. -/
structure SchemaT where
  check : String → Bool

structure ToolDefinition where
  blockId : String
  name : String
  description : String
  schema : String

structure MCPServer where
  name : String
  url : String
  authorizationToken : Option String
  allowedTools : Option (List String)

/-- The `force` input: `boolean | string` in the source. -/
inductive ForceOpt where
  | bool (b : Bool)
  | name (s : String)

/-- The durable record of one suspended turn (interface `CallState`). -/
structure CallState where
  messages : List Message
  toolCallIds : List String
  pendingId : String
  toolDefinitions : List ToolDefinition
  force : ForceOpt
  maxTokens : Nat
  mcpServers : List MCPServer
  model : String
  systemPrompt : Option String
  turn : Nat
  maxRetries : Nat
  schema : Option SchemaT
  thinking : Option Bool
  thinkingBudget : Option Nat
  temperature : Option Nat
  originalEventId : String

/-- A value stored in the key-value store. -/
inductive Val where
  | callSt (cs : CallState)
  | timerId (id : Nat)
  | lockV
  | frag (toolCallId : String) (result : String)

/-- Decimal digit character. -/
def digitChar : Nat → Char
  | 0 => '0' | 1 => '1' | 2 => '2' | 3 => '3' | 4 => '4'
  | 5 => '5' | 6 => '6' | 7 => '7' | 8 => '8' | 9 => '9'
  | _ => '*'

/-- Fuel-based decimal rendering of a natural number (structural, so the
kernel can evaluate it; `natCharsAux_fuel` shows the fuel is irrelevant). -/
def natCharsAux : Nat → Nat → List Char
  | 0, _ => []
  | fuel + 1, n =>
    if n < 10 then [digitChar n]
    else natCharsAux fuel (n / 10) ++ [digitChar (n % 10)]

/-- Decimal rendering of a natural number, as interpolated by `${turn}`. -/
def natChars (n : Nat) : List Char := natCharsAux (n + 1) n

/-- A key of the durable store: the source builds keys as template strings. -/
abbrev KvKey := List Char

def callKey (eventId : String) : KvKey := "call-".data ++ eventId.data

def resPre (eventId : String) (turn : Nat) : KvKey :=
  "result-".data ++ eventId.data ++ "-".data ++ natChars turn ++ "-".data

def resKey (eventId : String) (turn : Nat) (toolCallId : String) : KvKey :=
  resPre eventId turn ++ toolCallId.data

def timerKey (eventId : String) : KvKey := "timer-".data ++ eventId.data

def lockKey (eventId : String) : KvKey := "lock-".data ++ eventId.data

/-- Upsert into an association list: replace the binding if the key is
present, append it otherwise (the semantics of `kv.block.set` and of a JS
object assignment alike). -/
def upsert {κ β : Type} [DecidableEq κ] (s : List (κ × β)) (k : κ) (v : β) :
    List (κ × β) :=
  if s.any (fun p => p.1 = k) then
    s.map (fun p => if p.1 = k then (k, v) else p)
  else
    s ++ [(k, v)]

/-- Read from an association list (`kv.block.get`; `undefined` is `none`). -/
def alGet {κ β : Type} [DecidableEq κ] (s : List (κ × β)) (k : κ) : Option β :=
  (s.find? (fun p => p.1 = k)).map (fun p => p.2)

/-- Remove a key from an association list (`kv.block.delete`). -/
def alDelete {κ β : Type} [DecidableEq κ] (s : List (κ × β)) (k : κ) :
    List (κ × β) :=
  s.filter (fun p => ¬ p.1 = k)

/-- The key-value store: an association list (a real store has unique keys;
`kvSet` keeps that invariant and is total on arbitrary lists). -/
abbrev KvStore := List (KvKey × Val)

/-- `kv.block.set`: upsert. -/
abbrev kvSet (s : KvStore) (k : KvKey) (v : Val) : KvStore := upsert s k v

/-- `kv.block.get`. -/
abbrev kvGet (s : KvStore) (k : KvKey) : Option Val := alGet s k

/-- `kv.block.delete`. -/
abbrev kvDelete (s : KvStore) (k : KvKey) : KvStore := alDelete s k

/-- `kv.block.list keyPrefix`: all pairs whose key extends the given prefix. -/
def kvListByPre (s : KvStore) (pre : KvKey) : KvStore :=
  s.filter (fun p => pre.isPrefixOf p.1)

/-- An assignment `acc[key] = value` on a JS object modelled as an
association list (replace if present, append otherwise). -/
abbrev objSet (m : List (String × String)) (k v : String) :
    List (String × String) := upsert m k v

/-- A read `m[k]` on such an object (`undefined` is `none`). -/
abbrev objGet (m : List (String × String)) (k : String) : Option String :=
  alGet m k

/-- Characters allowed by the Anthropic tool-name regex `[a-z0-9_-]`
(after lowercasing). -/
def isAllowedChar (c : Char) : Bool :=
  ('a' ≤ c && c ≤ 'z') || ('0' ≤ c && c ≤ '9') || c = '_' || c = '-'

def isWsChar (c : Char) : Bool := c.isWhitespace

/-- `.trim()`: drop whitespace from both ends. -/
def trimChars (l : List Char) : List Char :=
  ((l.dropWhile isWsChar).reverse.dropWhile isWsChar).reverse

/-- `.replace(/\s+/g, "_")`: each maximal whitespace run becomes one `_`.
The boolean is "currently inside a whitespace run". -/
def collapseWsAux : Bool → List Char → List Char
  | _, [] => []
  | inRun, c :: cs =>
    if isWsChar c then
      if inRun then collapseWsAux true cs else '_' :: collapseWsAux true cs
    else c :: collapseWsAux false cs

def collapseWs (l : List Char) : List Char := collapseWsAux false l

/-- `.replace(/[^a-z0-9_-]/g, "_")`. -/
def sanitizeChars (l : List Char) : List Char :=
  l.map (fun c => if isAllowedChar c then c else '_')

def isUH (c : Char) : Bool := c = '_' || c = '-'

/-- `.replace(/[_-]{2,}/g, "_")`: runs of length at least two of `_`/`-`
collapse to one `_`; a lone `_` or `-` is kept.  Fuel-based so the kernel can
evaluate it; the fallback returns the list unchanged, which keeps the
character-membership property unconditional. -/
def headIsUH : List Char → Bool
  | [] => false
  | d :: _ => isUH d

def collapseUHAux : Nat → List Char → List Char
  | 0, l => l
  | _, [] => []
  | fuel + 1, c :: cs =>
    if isUH c && headIsUH cs then '_' :: collapseUHAux fuel (cs.dropWhile isUH)
    else c :: collapseUHAux fuel cs

def collapseUH (l : List Char) : List Char := collapseUHAux l.length l

/-- `.replace(/^[_-]+|[_-]+$/g, "")`. -/
def stripUH (l : List Char) : List Char :=
  ((l.dropWhile isUH).reverse.dropWhile isUH).reverse

/-- `cleanToolName` (utils.ts): trim, lowercase, collapse whitespace to `_`,
replace disallowed characters by `_`, collapse `[_-]` runs, strip leading and
trailing `[_-]`, and truncate to 64 characters. -/
def cleanToolName (name : String) : String :=
  ⟨(stripUH (collapseUH (sanitizeChars (collapseWs
      ((trimChars name.data).map Char.toLower))))).take 64⟩

/-- `processToolDefinitions` (utils.ts): cleaned tool list plus the
cleaned-name → original-name and cleaned-name → block-id objects. -/
def processToolDefinitions (toolDefinitions : List ToolDefinition) :
    List (String × String × String) × List (String × String) × List (String × String) :=
  toolDefinitions.foldl
    (fun acc td =>
      let cleanedName := cleanToolName td.name
      (acc.1 ++ [(cleanedName, td.description, td.schema)],
       objSet acc.2.1 cleanedName td.name,
       objSet acc.2.2 cleanedName td.blockId))
    ([], [], [])

/-- `joinToolNames` (utils.ts); `toolNames[...]` of an unknown key
interpolates as `undefined` in a JS template literal. -/
def joinToolNames (toolCalls : List Block) (toolNames : List (String × String)) : String :=
  let quoted : Block → String := fun b =>
    match b with
    | .toolUse _ n _ => "\"" ++ ((objGet toolNames n).getD "undefined") ++ "\""
    | _ => "\"undefined\""
  match toolCalls with
  | [] => ""
  | [b] => quoted b
  | _ =>
    String.intercalate ", " ((toolCalls.dropLast).map quoted) ++ " and " ++
      ((toolCalls.getLast?.map quoted).getD "")

/-- The final message of a model stream (`stream.finalMessage()`). -/
structure ModelMessage where
  role : String
  stopReason : String
  content : List Block
  inputTokens : Nat
  outputTokens : Nat

/-- One network interaction with the model: a final message, or a thrown
error (rejected promise) whose message is recorded. -/
inductive ModelOutcome where
  | msg (m : ModelMessage)
  | err (e : String)

def ModelOutcome.isErr : ModelOutcome → Bool
  | .err _ => true
  | .msg _ => false

/-- A record of one `events.emit` call made by `emitResult`. -/
structure EmitRec where
  pendingId : String
  text : Option String
  object : Option String
  inputTokens : Nat
  outputTokens : Nat
  parentEventId : String

/-- A record of one `messaging.sendToBlocks` call (tool dispatch). -/
structure SentMsg where
  blockId : String
  eventId : String
  parameters : String
  toolCallId : String
  targetBlockId : String

/-- The world state threaded through every operation. -/
structure Env where
  kv : KvStore
  timers : List Nat
  nextTimer : Nat
  oracle : List ModelOutcome
  requests : List (List Message)
  waits : List Nat
  updates : List (String × String)
  cancelled : List (String × String)
  emitted : List EmitRec
  sent : List SentMsg
  continueCalls : Nat

/-- `events.updatePending(pendingId, { statusDescription })`. -/
def updatePending (env : Env) (pendingId desc : String) : Env :=
  { env with updates := env.updates ++ [(pendingId, desc)] }

/-- `events.cancelPending(pendingId, reason)`. -/
def cancelPending (env : Env) (pendingId reason : String) : Env :=
  { env with cancelled := env.cancelled ++ [(pendingId, reason)] }

/-- `emitResult` (utils.ts): completes the pending event with the terminal
result. -/
def emitResult (env : Env) (pendingId : String) (text : Option String)
    (object : Option String) (inputTokens outputTokens : Nat)
    (parentEventId : String) : Env :=
  { env with emitted := env.emitted ++
      [⟨pendingId, text, object, inputTokens, outputTokens, parentEventId⟩] }

/-- `storeCallState` (utils.ts): persists the turn state under `call-<id>`. -/
def storeCallState (env : Env) (eventId : String) (cs : CallState) : Env :=
  { env with kv := kvSet env.kv (callKey eventId) (Val.callSt cs) }

/-- `loadCallState` (utils.ts): throws "Call state not found" on a missing
value. -/
def loadCallStateE (s : KvStore) (eventId : String) : Except String CallState :=
  match kvGet s (callKey eventId) with
  | some (Val.callSt cs) => .ok cs
  | _ => .error "Call state not found"

/-- `deleteCallState` (utils.ts). -/
def deleteCallState (env : Env) (eventId : String) : Env :=
  { env with kv := kvDelete env.kv (callKey eventId) }

/-- `storeToolResult` (utils.ts): one fragment under
`result-<eventId>-<turn>-<toolCallId>` (the 5-minute TTL is not modelled). -/
def storeToolResult (s : KvStore) (eventId toolCallId : String) (result : String)
    (turn : Nat) : KvStore :=
  kvSet s (resKey eventId turn toolCallId) (Val.frag toolCallId result)

/-- The aggregation result of `loadToolResults`. -/
structure AggResult where
  haveAllResults : Bool
  toolResults : List (String × String)
deriving DecidableEq

/-- `loadToolResults` (utils.ts): list all pairs under the
`result-<eventId>-<turn>-` prefix, fold them into an object keyed by each
fragment's `toolCallId` field, and report completeness iff every requested
identifier is present. -/
def fragStep (acc : List (String × String)) (p : KvKey × Val) :
    List (String × String) :=
  match p.2 with
  | Val.frag id r => objSet acc id r
  | _ => acc

def loadToolResults (s : KvStore) (eventId : String) (turn : Nat)
    (toolCallIds : List String) : AggResult :=
  let toolResults := (kvListByPre s (resPre eventId turn)).foldl fragStep []
  let haveAllResults := toolCallIds.all (fun id => (objGet toolResults id).isSome)
  ⟨haveAllResults, toolResults⟩

/-- `setTimeoutTimer` (utils.ts): schedule a fresh 2-minute timer and store
its handle under `timer-<eventId>` (overwriting any stored handle). -/
def setTimeoutTimer (env : Env) (eventId : String) : Env :=
  { env with
    timers := env.timers ++ [env.nextTimer],
    nextTimer := env.nextTimer + 1,
    kv := kvSet env.kv (timerKey eventId) (Val.timerId env.nextTimer) }

/-- `clearTimeoutTimer` (utils.ts): read the stored handle and, if present,
unset that timer.  The stored handle itself is not deleted. -/
def clearTimeoutTimer (env : Env) (eventId : String) : Env :=
  match kvGet env.kv (timerKey eventId) with
  | some (Val.timerId id) => { env with timers := env.timers.filter (fun t => ¬ t = id) }
  | _ => env

/-- `isTimerLocked` (utils.ts). -/
def isTimerLocked (s : KvStore) (eventId : String) : Bool :=
  match kvGet s (lockKey eventId) with
  | some Val.lockV => true
  | _ => false

/-- `setTimerLock` (utils.ts) (the 5-minute TTL safety net is not modelled). -/
def setTimerLock (env : Env) (eventId : String) : Env :=
  { env with kv := kvSet env.kv (lockKey eventId) Val.lockV }

/-- `clearTimerLock` (utils.ts). -/
def clearTimerLock (env : Env) (eventId : String) : Env :=
  { env with kv := kvDelete env.kv (lockKey eventId) }

/-- The parameters threaded through `executeTurn` / `handleModelResponse`. -/
structure TurnParams where
  pendingId : String
  eventId : String
  blockId : String
  toolDefinitions : List ToolDefinition
  force : ForceOpt
  model : String
  maxTokens : Nat
  mcpServers : List MCPServer
  systemPrompt : Option String
  turn : Nat
  apiKey : String
  maxRetries : Nat
  schema : Option SchemaT
  thinking : Option Bool
  thinkingBudget : Option Nat
  temperature : Option Nat

/-- `message.content.findLast(c => c.type === "text")?.text`. -/
def lastTextOf (bs : List Block) : Option String :=
  bs.reverse.findSome? (fun b =>
    match b with
    | .text t => some t
    | _ => none)

/-- `message.content.find(c => c.type === "tool_use")?.input`. -/
def firstToolUseInput (bs : List Block) : Option String :=
  bs.findSome? (fun b =>
    match b with
    | .toolUse _ _ input => some input
    | _ => none)

/-- Thinking blocks are filtered out of array-shaped message content before a
schema-forcing call (`generateObject`). -/
def stripThinking (msgs : List Message) : List Message :=
  msgs.map (fun m =>
    { m with content :=
        match m.content with
        | .blocks bs => .blocks (bs.filter (fun b => ¬ b.isThinking))
        | .str s => .str s })

/-- The substring checks of `executeTurn`'s catch block:
`errorMessage.includes(...)` after lowercasing. -/
def containsSub (needle hay : List Char) : Bool :=
  hay.tails.any (fun t => needle.isPrefixOf t)

/-- Whether a thrown error is classified transient (retryable) by
`executeTurn`. -/
def isRetryableMsg (msg : String) : Bool :=
  let lm := msg.data.map Char.toLower
  containsSub "overloaded".data lm || containsSub "rate limit".data lm ||
  containsSub "timeout".data lm || containsSub "502".data lm ||
  containsSub "503".data lm || containsSub "504".data lm

/-- Consume the next network outcome (an exhausted oracle behaves as a
thrown error). -/
def takeOutcome (env : Env) : Env × ModelOutcome :=
  match env.oracle with
  | [] => (env, ModelOutcome.err "No model response")
  | o :: rest => ({ env with oracle := rest }, o)

/-- The parameters of `generateObject` (the accumulating token counts and the
retry counter are loop state, below). -/
structure GenParams where
  apiKey : String
  model : String
  maxTokens : Nat
  messages : List Message
  schema : SchemaT
  maxRetries : Nat
  pendingId : String
  parentEventId : String

/-- The `while (retryCount < maxRetries)` loop of `generateObject`, with
`fuel = maxRetries - retryCount`.  On `fuel = 0` the loop has exhausted its
attempts: cancel the pending event with the last transport error if one was
caught, else the generic message, and re-throw the error if present. -/
def generateObjectGo (finalText : String) (p : GenParams) :
    Nat → Env → Nat → Nat → Nat → Option String → Env × Except String Unit
  | 0, env, _, _, _, lastError =>
    let env := cancelPending env p.pendingId
      (match lastError with
       | some e => "Object generation failed: " ++ e
       | none => "Failed to generate object")
    match lastError with
    | some e => (env, .error e)
    | none => (env, .ok ())
  | fuel + 1, env, inputTokens, outputTokens, retryCount, lastError =>
    let env := updatePending env p.pendingId
      (if retryCount = 0 then "Generating object..."
       else "Generating object... (retry " ++ toString (retryCount + 1) ++ ")")
    let msgs := stripThinking p.messages
    let env := { env with requests := env.requests ++ [msgs] }
    match takeOutcome env with
    | (env, ModelOutcome.err e) =>
      generateObjectGo finalText p fuel env inputTokens outputTokens
        (retryCount + 1) (some e)
    | (env, ModelOutcome.msg m) =>
      let inputTokens := inputTokens + m.inputTokens
      let outputTokens := outputTokens + m.outputTokens
      if m.stopReason = "tool_use" then
        match firstToolUseInput m.content with
        | some input =>
          if p.schema.check input then
            (emitResult env p.pendingId (some finalText) (some input)
              inputTokens outputTokens p.parentEventId, .ok ())
          else
            generateObjectGo finalText p fuel env inputTokens outputTokens
              (retryCount + 1) lastError
        | none =>
          generateObjectGo finalText p fuel env inputTokens outputTokens
            (retryCount + 1) lastError
      else
        generateObjectGo finalText p fuel env inputTokens outputTokens
          (retryCount + 1) lastError

/-- `generateObject` (utils.ts): the bounded-retry structured-object
extractor. -/
def generateObject (env : Env) (finalText : String) (p : GenParams)
    (inputTokens outputTokens : Nat) : Env × Except String Unit :=
  generateObjectGo finalText p p.maxRetries env inputTokens outputTokens 0 none

/-- `handleModelResponse` (utils.ts): classify the final message by stop
reason and finalize, extract an object, dispatch tools and suspend, or fail. -/
def handleModelResponse (env : Env) (p : TurnParams)
    (previousMessages : List Message) (message : ModelMessage) :
    Env × Except String Unit :=
  let tnb := processToolDefinitions p.toolDefinitions
  let toolNames := tnb.2.1
  let toolBlockIds := tnb.2.2
  if message.stopReason = "end_turn" then
    match lastTextOf message.content with
    | none => (env, .error "Model did not respond with text")
    | some t =>
      if t = "" then (env, .error "Model did not respond with text")
      else
        match p.schema with
        | some schema =>
          generateObject env t
            { apiKey := p.apiKey, model := p.model, maxTokens := p.maxTokens,
              messages := previousMessages ++
                [⟨message.role, .blocks message.content⟩],
              schema, maxRetries := p.maxRetries, pendingId := p.pendingId,
              parentEventId := p.eventId }
            message.inputTokens message.outputTokens
        | none =>
          (emitResult env p.pendingId (some t) none message.inputTokens
            message.outputTokens p.eventId, .ok ())
  else if message.stopReason = "tool_use" then
    let toolCalls := message.content.filter (fun b =>
      match b with
      | .toolUse _ _ _ => true
      | _ => false)
    let toolCallNames := joinToolNames toolCalls toolNames
    let env := updatePending env p.pendingId
      (if toolCalls.length = 1 then "Calling tool: " ++ toolCallNames
       else "Calling tools: " ++ toolCallNames)
    let env := toolCalls.foldl
      (fun env b =>
        match b with
        | .toolUse id name input =>
          { env with sent := env.sent ++
              [⟨p.blockId, p.eventId, input, id,
                (objGet toolBlockIds name).getD "undefined"⟩] }
        | _ => env)
      env
    let env := storeCallState env p.eventId
      { messages := previousMessages ++ [⟨message.role, .blocks message.content⟩],
        toolCallIds := toolCalls.filterMap (fun b =>
          match b with
          | .toolUse id _ _ => some id
          | _ => none),
        pendingId := p.pendingId, toolDefinitions := p.toolDefinitions,
        force := p.force, maxTokens := p.maxTokens, mcpServers := p.mcpServers,
        model := p.model, systemPrompt := p.systemPrompt, turn := p.turn + 1,
        maxRetries := p.maxRetries, schema := p.schema, thinking := p.thinking,
        thinkingBudget := p.thinkingBudget, temperature := p.temperature,
        originalEventId := p.eventId }
    (setTimeoutTimer env p.eventId, .ok ())
  else
    let env := cancelPending env p.pendingId "Unexpected response from model"
    (deleteCallState env p.eventId, .ok ())

/-- The shared exit code at the bottom of `executeTurn`: cancel the pending
event with the last error, discard the persisted call state, and re-throw. -/
def executeTurnFail (env : Env) (p : TurnParams) (lastError : Option String) :
    Env × Except String Unit :=
  let env := cancelPending env p.pendingId
    ("API call failed: " ++ (lastError.getD "Unknown error"))
  let env := deleteCallState env p.eventId
  (env, .error (lastError.getD "Unknown error"))

/-- The `while (retryCount < maxRetries)` loop of `executeTurn`, with
`fuel = maxRetries - retryCount`.  Note that the `return handleModelResponse(...)`
in the source is not awaited, so its rejection bypasses the `catch` and the
exit code entirely. -/
def executeTurnGo (p : TurnParams) (messages : List Message) :
    Nat → Env → Nat → Option String → Env × Except String Unit
  | 0, env, _, lastError => executeTurnFail env p lastError
  | fuel + 1, env, retryCount, _ =>
    let env :=
      if retryCount > 0 then
        updatePending env p.pendingId
          ("Retrying API call... (attempt " ++ toString (retryCount + 1) ++ ")")
      else env
    let env := { env with requests := env.requests ++ [messages] }
    match takeOutcome env with
    | (env, ModelOutcome.msg m) => handleModelResponse env p messages m
    | (env, ModelOutcome.err e) =>
      let retryCount := retryCount + 1
      if ¬ (isRetryableMsg e = true) ∨ fuel = 0 then
        executeTurnFail env p (some e)
      else
        let delay := min (1000 * 2 ^ (retryCount - 1)) 10000
        let env := { env with waits := env.waits ++ [delay] }
        executeTurnGo p messages fuel env retryCount (some e)

/-- `executeTurn` (utils.ts): issue the model request with retry-with-backoff
for transient failures and hand the final message to `handleModelResponse`. -/
def executeTurn (env : Env) (p : TurnParams) (messages : List Message) :
    Env × Except String Unit :=
  executeTurnGo p messages p.maxRetries env 0 none

/-- `continueTurn` (utils.ts): append one user message holding the ordered
tool results (identifiers without a stored result are silently omitted) and
re-enter `executeTurn`.  `continueCalls` is a ghost counter observing
resumption. -/
def continueTurn (env : Env) (p : TurnParams) (messages : List Message)
    (toolCallIds : List String) (toolResults : List (String × String)) :
    Env × Except String Unit :=
  let env := { env with continueCalls := env.continueCalls + 1 }
  let env := updatePending env p.pendingId
    ("Received results from tool" ++
      (if toolCallIds.length = 1 then "" else "s") ++ "...")
  let parts := toolCallIds.filterMap (fun id =>
    (objGet toolResults id).map (fun r => Block.toolResult id r))
  let nextMessages := messages ++ [⟨"user", .blocks parts⟩]
  executeTurn env p nextMessages

/-- Rebuild the `TurnParams` a resumption passes to `continueTurn` from a
loaded `CallState` plus the ambient api key and block id. -/
def paramsOfCallState (cs : CallState) (eventId apiKey blockId : String) :
    TurnParams :=
  { pendingId := cs.pendingId, eventId, blockId,
    toolDefinitions := cs.toolDefinitions, force := cs.force,
    model := cs.model, maxTokens := cs.maxTokens, mcpServers := cs.mcpServers,
    systemPrompt := cs.systemPrompt, turn := cs.turn, apiKey,
    maxRetries := cs.maxRetries, schema := cs.schema, thinking := cs.thinking,
    thinkingBudget := cs.thinkingBudget, temperature := cs.temperature }

/-- The `onTimer` handler of the `generateMessage` block: acquire the Race
Guard, load the call state, aggregate, and either fail the caller with
"Timeout" or resume the turn; a thrown error propagates (every call in the
handler is awaited, and there is no `try`/`finally`). -/
def onTimer (env : Env) (apiKey blockId eventId : String) :
    Env × Except String Unit :=
  let env := setTimerLock env eventId
  match loadCallStateE env.kv eventId with
  | .error e => (env, .error e)
  | .ok cs =>
    let agg := loadToolResults env.kv eventId cs.turn cs.toolCallIds
    if agg.haveAllResults then
      match continueTurn env (paramsOfCallState cs eventId apiKey blockId)
          cs.messages cs.toolCallIds agg.toolResults with
      | (env, .error e) => (env, .error e)
      | (env, .ok _) => (clearTimerLock env eventId, .ok ())
    else
      let env := clearTimerLock env eventId
      (cancelPending env cs.pendingId "Timeout", .ok ())

/-- The `onInternalMessage` handler of the `generateMessage` block: no-op if
the Race Guard is held; otherwise load state, cancel the pending timeout,
store the fragment, aggregate, and either re-register a timeout or resume. -/
def onInternalMessage (env : Env) (apiKey blockId eventId toolCallId : String)
    (result : String) : Env × Except String Unit :=
  if isTimerLocked env.kv eventId then (env, .ok ())
  else
    match loadCallStateE env.kv eventId with
    | .error e => (env, .error e)
    | .ok cs =>
      let env := clearTimeoutTimer env eventId
      let env := { env with kv := storeToolResult env.kv eventId toolCallId result cs.turn }
      let agg := loadToolResults env.kv eventId cs.turn cs.toolCallIds
      if agg.haveAllResults then
        continueTurn env (paramsOfCallState cs eventId apiKey blockId)
          cs.messages cs.toolCallIds agg.toolResults
      else
        (setTimeoutTimer env eventId, .ok ())

def unDigit (c : Char) : Nat := c.toNat - 48

def chasVal (l : List Char) : Nat := l.foldl (fun a c => a * 10 + unDigit c) 0

/-- Whether one network outcome fails to produce a validating object for the
extractor: thrown errors, messages that did not stop on tool use, messages
without a tool-use block, and tool inputs that fail schema validation. -/
def genAttemptFails (sch : SchemaT) : ModelOutcome → Bool
  | .err _ => true
  | .msg m =>
    if m.stopReason = "tool_use" then
      match firstToolUseInput m.content with
      | some input => ¬ sch.check input
      | none => true
    else true

def outcomeInTok : ModelOutcome → Nat
  | .msg m => m.inputTokens
  | .err _ => 0

def outcomeOutTok : ModelOutcome → Nat
  | .msg m => m.outputTokens
  | .err _ => 0

/-- The `lastError` variable of `generateObject` after processing a list of
outcomes, starting from `init`. -/
def lastErrFrom (init : Option String) : List ModelOutcome → Option String
  | [] => init
  | o :: os =>
    lastErrFrom (match o with | .err e => some e | _ => init) os

/-- The status note `generateObject` posts before each attempt. -/
def genNote (p : GenParams) (retryCount : Nat) : String × String :=
  (p.pendingId,
    if retryCount = 0 then "Generating object..."
    else "Generating object... (retry " ++ toString (retryCount + 1) ++ ")")

def emptyEnv : Env := ⟨[], [], 0, [], [], [], [], [], [], [], 0⟩

/-- A suspended-turn call state awaiting one tool result `t1` on turn 1. -/
def csA : CallState :=
  { messages := [⟨"user", .str "hi"⟩], toolCallIds := ["t1"], pendingId := "p",
    toolDefinitions := [], force := .bool false, maxTokens := 100,
    mcpServers := [], model := "m", systemPrompt := none, turn := 1,
    maxRetries := 1, schema := none, thinking := none, thinkingBudget := none,
    temperature := none, originalEventId := "e" }

/-- A suspended-turn call state awaiting two tool results on turn 1. -/
def csB : CallState :=
  { csA with toolCallIds := ["t1", "t2"] }

def mDone : ModelMessage := ⟨"assistant", "end_turn", [Block.text "done"], 5, 3⟩

def mDone2 : ModelMessage := ⟨"assistant", "end_turn", [Block.text "again"], 7, 2⟩

/-- A model response with an unexpected stop reason. -/
def mMax : ModelMessage := ⟨"assistant", "max_tokens", [Block.text "x"], 1, 1⟩

/-- Concrete turn parameters. -/
def pA : TurnParams :=
  { pendingId := "p", eventId := "e", blockId := "b", toolDefinitions := [],
    force := .bool false, model := "m", maxTokens := 100, mcpServers := [],
    systemPrompt := none, turn := 0, apiKey := "k", maxRetries := 1,
    schema := none, thinking := none, thinkingBudget := none,
    temperature := none }

/-- Like `pA` with a budget of two attempts. -/
def pB : TurnParams := { pA with maxRetries := 2 }

/-- An environment holding only the suspended call state for `csA` and two
end-of-turn responses in the oracle. -/
def envSusA : Env :=
  { emptyEnv with kv := [(callKey "e", Val.callSt csA)],
                  oracle := [.msg mDone, .msg mDone2] }

/-- An environment holding only the suspended call state for `csB` (two
outstanding results). -/
def envSusB : Env :=
  { emptyEnv with kv := [(callKey "e", Val.callSt csB)] }

/-- An environment whose lock is held for conversation `e`. -/
def envLocked : Env :=
  { emptyEnv with kv := [(lockKey "e", Val.lockV)] }

/-- Schema accepting exactly the input "ok". -/
def schOk : SchemaT := ⟨fun s => s = "ok"⟩

def gpA : GenParams :=
  { apiKey := "k", model := "m", maxTokens := 50, messages := [],
    schema := schOk, maxRetries := 2, pendingId := "p",
    parentEventId := "e" }

def gpB : GenParams := { gpA with maxRetries := 1 }

/-- A forced-json attempt whose input fails validation. -/
def mBad : ModelMessage :=
  ⟨"assistant", "tool_use", [Block.toolUse "j" "json" "bad"], 2, 1⟩

/-- A forced-json attempt whose input validates. -/
def mGood : ModelMessage :=
  ⟨"assistant", "tool_use", [Block.toolUse "j" "json" "ok"], 3, 2⟩

theorem natCharsAux_fuel (n : Nat) : ∀ fuel fuel', n < fuel → n < fuel' →
    natCharsAux fuel n = natCharsAux fuel' n := by
  induction n using Nat.strong_induction_on with
  | _ n ih =>
    intro fuel fuel' h h'
    match fuel, fuel' with
    | f + 1, g + 1 =>
      show (if n < 10 then [digitChar n] else natCharsAux f (n / 10) ++ [digitChar (n % 10)])
        = (if n < 10 then [digitChar n] else natCharsAux g (n / 10) ++ [digitChar (n % 10)])
      split
      · rfl
      · next hn =>
        have hdiv : n / 10 < n := Nat.div_lt_self (by omega) (by omega)
        rw [ih (n / 10) hdiv f g (by omega) (by omega)]

theorem natChars_eq (n : Nat) :
    natChars n = if n < 10 then [digitChar n] else natChars (n / 10) ++ [digitChar (n % 10)] := by
  show natCharsAux (n + 1) n = _
  show (if n < 10 then [digitChar n] else natCharsAux n (n / 10) ++ [digitChar (n % 10)]) = _
  split
  · rfl
  · next hn =>
    have hdiv : n / 10 < n := Nat.div_lt_self (by omega) (by omega)
    rw [natCharsAux_fuel (n / 10) n (n / 10 + 1) (by omega) (by omega)]
    rfl

theorem chasVal_natChars (n : Nat) : chasVal (natChars n) = n := by
  induction n using Nat.strong_induction_on with
  | _ n ih =>
    rw [natChars_eq]
    split
    · next h => interval_cases n <;> decide
    · next h =>
      have h10 : n / 10 < n := Nat.div_lt_self (by omega) (by omega)
      have hv := ih (n / 10) h10
      unfold chasVal at *
      rw [List.foldl_append, hv]
      have hlt : n % 10 < 10 := Nat.mod_lt _ (by omega)
      have hu : unDigit (digitChar (n % 10)) = n % 10 := by
        interval_cases h : n % 10 <;> decide
      simp only [List.foldl_cons, List.foldl_nil, hu]
      omega

theorem natChars_inj {m n : Nat} (h : natChars m = natChars n) : m = n := by
  have := congrArg chasVal h
  rwa [chasVal_natChars, chasVal_natChars] at this

theorem natChars_no_hyphen (n : Nat) : ∀ c ∈ natChars n, c ≠ '-' := by
  induction n using Nat.strong_induction_on with
  | _ n ih =>
    rw [natChars_eq]
    split
    · next h => interval_cases n <;> decide
    · next h =>
      intro c hc
      rw [List.mem_append] at hc
      rcases hc with hc | hc
      · exact ih (n / 10) (Nat.div_lt_self (by omega) (by omega)) c hc
      · rw [List.mem_singleton] at hc
        subst hc
        have hlt : n % 10 < 10 := Nat.mod_lt _ (by omega)
        interval_cases h : n % 10 <;> decide

theorem sep_tok_eq : ∀ (a b r : List Char), (∀ c ∈ a, c ≠ '-') → (∀ c ∈ b, c ≠ '-') →
    (a ++ ['-']) <+: (b ++ '-' :: r) → a = b := by
  intro a
  induction a with
  | nil =>
    intro b r _ hb h
    cases b with
    | nil => rfl
    | cons d b' =>
      exfalso
      rw [List.nil_append, List.cons_append, List.cons_prefix_cons] at h
      exact hb d (List.mem_cons_self d b') h.1.symm
  | cons c a' ih =>
    intro b r ha hb h
    cases b with
    | nil =>
      exfalso
      rw [List.nil_append, List.cons_append, List.cons_prefix_cons] at h
      exact ha c (List.mem_cons_self c a') h.1
    | cons d b' =>
      rw [List.cons_append, List.cons_append, List.cons_prefix_cons] at h
      rw [h.1]
      congr 1
      exact ih b' r (fun x hx => ha x (List.mem_cons_of_mem c hx))
        (fun x hx => hb x (List.mem_cons_of_mem d hx)) h.2

/-- The decimal turn component of a fragment key is unambiguous: a fragment
written under a different turn number (same eventId) never matches the
aggregation prefix. -/
theorem resPre_not_prefix_of_other_turn (e : String) (t t' : Nat) (id : String)
    (hne : t ≠ t') : (resPre e t).isPrefixOf (resKey e t' id) = false := by
  by_contra h
  rw [Bool.not_eq_false, List.isPrefixOf_iff_prefix] at h
  apply hne
  unfold resKey resPre at h
  simp only [List.append_assoc] at h
  rw [List.prefix_append_right_inj, List.prefix_append_right_inj,
    List.prefix_append_right_inj] at h
  have h' : (natChars t ++ ['-']) <+: (natChars t' ++ '-' :: id.data) := by
    rcases h with ⟨u, hu⟩
    exact ⟨u, by simpa [List.append_assoc] using hu⟩
  exact natChars_inj (sep_tok_eq _ _ _ (natChars_no_hyphen t) (natChars_no_hyphen t') h')

section AssocLemmas

variable {κ β : Type} [DecidableEq κ]

theorem alGet_map_set (s : List (κ × β)) (k k' : κ) (v : β) :
    alGet (s.map (fun p => if p.1 = k then (k, v) else p)) k' =
      (s.find? (fun p => p.1 = k')).map
        (fun p => if p.1 = k then v else p.2) := by
  induction s with
  | nil => simp [alGet]
  | cons p ps ih =>
    by_cases hp : p.1 = k
    · by_cases hk : k' = k
      · subst hk
        unfold alGet
        rw [List.map_cons, if_pos hp,
          List.find?_cons_of_pos _ (by simp),
          List.find?_cons_of_pos _ (by simp [hp])]
        simp [hp]
      · unfold alGet at ih ⊢
        rw [List.map_cons, if_pos hp,
          List.find?_cons_of_neg _ (by simp; exact fun hc => hk hc.symm),
          List.find?_cons_of_neg _ (by simp [hp]; exact fun hc => hk hc.symm)]
        exact ih
    · by_cases hk : p.1 = k'
      · unfold alGet
        rw [List.map_cons, if_neg hp,
          List.find?_cons_of_pos _ (by simp [hk]),
          List.find?_cons_of_pos _ (by simp [hk])]
        simp [hp]
      · unfold alGet at ih ⊢
        rw [List.map_cons, if_neg hp,
          List.find?_cons_of_neg _ (by simp [hk]),
          List.find?_cons_of_neg _ (by simp [hk])]
        exact ih

theorem alGet_append_single (s : List (κ × β)) (k k' : κ) (v : β) :
    alGet (s ++ [(k, v)]) k' =
      ((s.find? (fun p => p.1 = k')).map (fun p => p.2)).orElse
        (fun _ => if k' = k then some v else none) := by
  induction s with
  | nil =>
    by_cases hk : k' = k
    · subst hk
      unfold alGet
      rw [List.nil_append, List.find?_cons_of_pos _ (by simp)]
      simp
    · unfold alGet
      rw [List.nil_append, List.find?_cons_of_neg _ (by simp; exact fun hc => hk hc.symm)]
      simp [hk]
  | cons p ps ih =>
    by_cases hk : p.1 = k'
    · unfold alGet
      rw [List.cons_append, List.find?_cons_of_pos _ (by simp [hk]),
        List.find?_cons_of_pos _ (by simp [hk])]
      simp
    · unfold alGet at ih ⊢
      rw [List.cons_append, List.find?_cons_of_neg _ (by simp [hk]),
        List.find?_cons_of_neg _ (by simp [hk])]
      exact ih

theorem alGet_upsert_self (s : List (κ × β)) (k : κ) (v : β) :
    alGet (upsert s k v) k = some v := by
  unfold upsert
  split
  · next hany =>
    rw [alGet_map_set]
    rw [List.any_eq_true] at hany
    rcases hany with ⟨p, hps, hp⟩
    rw [decide_eq_true_eq] at hp
    rcases hf : s.find? (fun p => p.1 = k) with _ | q
    · rw [List.find?_eq_none] at hf
      exact absurd hp (by simpa using hf p hps)
    · have hq : q.1 = k := by simpa using List.find?_some hf
      rw [hf]
      show some (if q.1 = k then v else q.2) = some v
      rw [if_pos hq]
  · rw [alGet_append_single]
    next hany =>
    rcases hf : s.find? (fun p => p.1 = k) with _ | q
    · rw [hf]
      simp
    · exfalso
      apply hany
      rw [List.any_eq_true]
      exact ⟨q, List.mem_of_find?_eq_some hf, by simpa using List.find?_some hf⟩

theorem alGet_upsert_ne (s : List (κ × β)) (k k' : κ) (v : β) (h : ¬ k' = k) :
    alGet (upsert s k v) k' = alGet s k' := by
  unfold upsert
  split
  · rw [alGet_map_set]
    unfold alGet
    rcases hf : s.find? (fun p => p.1 = k') with _ | q
    · rw [hf]
      rfl
    · have hq : q.1 = k' := by simpa using List.find?_some hf
      have hq2 : ¬ q.1 = k := by rw [hq]; exact h
      rw [hf]
      show some (if q.1 = k then v else q.2) = some q.2
      rw [if_neg hq2]
  · rw [alGet_append_single]
    unfold alGet
    rcases hf : s.find? (fun p => p.1 = k') with _ | q
    · rw [hf]
      simp [h]
    · rw [hf]
      rfl

theorem alGet_alDelete_self (s : List (κ × β)) (k : κ) :
    alGet (alDelete s k) k = none := by
  unfold alDelete alGet
  rw [Option.map_eq_none', List.find?_eq_none]
  intro p hp
  rw [List.mem_filter] at hp
  simpa using hp.2

theorem alGet_alDelete_ne (s : List (κ × β)) (k k' : κ) (h : ¬ k' = k) :
    alGet (alDelete s k) k' = alGet s k' := by
  unfold alDelete alGet
  induction s with
  | nil => simp
  | cons p ps ih =>
    by_cases hp : p.1 = k
    · rw [List.filter_cons_of_neg (by simp [hp]),
        List.find?_cons_of_neg _ (by simp [hp]; intro hc; exact h hc.symm)]
      exact ih
    · rw [List.filter_cons_of_pos (by simp [hp])]
      by_cases hk : p.1 = k'
      · rw [List.find?_cons_of_pos _ (by simp [hk]),
          List.find?_cons_of_pos _ (by simp [hk])]
      · rw [List.find?_cons_of_neg _ (by simp [hk]),
          List.find?_cons_of_neg _ (by simp [hk])]
        exact ih

theorem upsert_upsert_same (s : List (κ × β)) (k : κ) (v w : β) :
    upsert (upsert s k v) k w = upsert s k w := by
  unfold upsert
  split
  · next hany =>
    have hany2 : (s.map (fun p => if p.1 = k then (k, v) else p)).any
        (fun p => p.1 = k) = true := by
      rw [List.any_eq_true] at hany ⊢
      rcases hany with ⟨p, hps, hp⟩
      refine ⟨if p.1 = k then (k, v) else p, List.mem_map_of_mem _ hps, ?_⟩
      rw [decide_eq_true_eq] at hp
      simp [hp]
    rw [if_pos hany2, List.map_map]
    congr 1
    funext p
    by_cases hp : p.1 = k <;> simp [hp]
  · next hany =>
    have hany2 : (s ++ [(k, v)]).any (fun p => p.1 = k) = true := by
      rw [List.any_eq_true]
      exact ⟨(k, v), by simp, by simp⟩
    rw [if_pos hany2, List.map_append]
    have h1 : s.map (fun p => if p.1 = k then (k, w) else p) = s := by
      have hmc : s.map (fun p => if p.1 = k then (k, w) else p) = s.map id := by
        apply List.map_congr_left
        intro p hps
        have hp : ¬ p.1 = k := by
          intro hc
          exact hany (by rw [List.any_eq_true]; exact ⟨p, hps, by simp [hc]⟩)
        simp [hp]
      rw [hmc, List.map_id]
    rw [h1]
    simp [upsert, hany]

/-- Every binding for `k` in `upsert s k v` is exactly `(k, v)`. -/
theorem mem_upsert_key (s : List (κ × β)) (k : κ) (v : β) :
    ∀ p ∈ upsert s k v, p.1 = k → p = (k, v) := by
  intro p hp hpk
  unfold upsert at hp
  split at hp
  · rw [List.mem_map] at hp
    rcases hp with ⟨q, _, hq⟩
    by_cases hqk : q.1 = k
    · rw [if_pos hqk] at hq
      exact hq.symm
    · rw [if_neg hqk] at hq
      exact absurd (hq ▸ hpk) hqk
  · rw [List.mem_append] at hp
    rcases hp with hp | hp
    · next hany =>
      exact absurd (by rw [List.any_eq_true]; exact ⟨p, hp, by simp [hpk]⟩) hany
    · simpa using hp

/-- `upsert` leaves bindings for other keys alone (as members). -/
theorem mem_upsert_of_ne (s : List (κ × β)) (k : κ) (v : β) (p : κ × β)
    (h : ¬ p.1 = k) : p ∈ upsert s k v ↔ p ∈ s := by
  unfold upsert
  split
  · constructor
    · intro hp
      rw [List.mem_map] at hp
      rcases hp with ⟨q, hq, hqe⟩
      by_cases hqk : q.1 = k
      · rw [if_pos hqk] at hqe
        exact absurd (by rw [← hqe]) h
      · rw [if_neg hqk] at hqe
        rwa [hqe] at hq
    · intro hp
      rw [List.mem_map]
      exact ⟨p, hp, by rw [if_neg h]⟩
  · constructor
    · intro hp
      rw [List.mem_append] at hp
      rcases hp with hp | hp
      · exact hp
      · have hpe : p = (k, v) := by simpa using hp
        exact absurd (by rw [hpe]) h
    · intro hp
      rw [List.mem_append]
      exact Or.inl hp

/-- `upsert` always leaves the key present. -/
theorem upsert_any_key (s : List (κ × β)) (k : κ) (v : β) :
    (upsert s k v).any (fun p => p.1 = k) = true := by
  unfold upsert
  split
  · next hany =>
    rw [List.any_eq_true] at hany ⊢
    rcases hany with ⟨p, hp, hpk⟩
    rw [decide_eq_true_eq] at hpk
    exact ⟨(k, v), List.mem_map.mpr ⟨p, hp, by rw [if_pos hpk]⟩, by simp⟩
  · rw [List.any_eq_true]
    exact ⟨(k, v), by simp, by simp⟩

/-- If every binding for `k` is already `(k, v)` and the key is present, the
upsert is the identity. -/
theorem upsert_eq_self (s : List (κ × β)) (k : κ) (v : β)
    (hall : ∀ p ∈ s, p.1 = k → p = (k, v))
    (hany : s.any (fun p => p.1 = k) = true) :
    upsert s k v = s := by
  unfold upsert
  rw [if_pos hany]
  have hmc : s.map (fun p => if p.1 = k then (k, v) else p) = s.map id := by
    apply List.map_congr_left
    intro p hps
    by_cases hp : p.1 = k
    · rw [if_pos hp, id_eq]
      exact (hall p hps hp).symm
    · rw [if_neg hp, id_eq]
  rw [hmc, List.map_id]

end AssocLemmas

theorem head_ne_of_char {a b : Char} (h : ¬ a = b) (xs ys : List Char) :
    ¬ (a :: xs : List Char) = b :: ys := by
  intro hc
  injection hc with h1 _
  exact h h1

theorem not_prefix_of_head_ne {a b : Char} (h : ¬ a = b) (xs ys : List Char) :
    ((a :: xs : List Char).isPrefixOf (b :: ys)) = false := by
  by_contra hc
  rw [Bool.not_eq_false, List.isPrefixOf_iff_prefix, List.cons_prefix_cons] at hc
  exact h hc.1

theorem callKey_ne_lockKey (e e' : String) : ¬ callKey e = lockKey e' :=
  head_ne_of_char (by decide) _ _

theorem timerKey_ne_lockKey (e e' : String) : ¬ timerKey e = lockKey e' :=
  head_ne_of_char (by decide) _ _

theorem resKey_ne_lockKey (e : String) (t : Nat) (id e' : String) :
    ¬ resKey e t id = lockKey e' :=
  head_ne_of_char (by decide) _ _

theorem resKey_ne_callKey (e : String) (t : Nat) (id e' : String) :
    ¬ resKey e t id = callKey e' :=
  head_ne_of_char (by decide) _ _

theorem timerKey_ne_callKey (e e' : String) : ¬ timerKey e = callKey e' :=
  head_ne_of_char (by decide) _ _

theorem timerKey_ne_resKey (e e' : String) (t : Nat) (id : String) :
    ¬ timerKey e = resKey e' t id :=
  head_ne_of_char (by decide) _ _

theorem resPre_not_prefix_timerKey (e : String) (t : Nat) (e' : String) :
    (resPre e t).isPrefixOf (timerKey e') = false :=
  not_prefix_of_head_ne (by decide) _ _

theorem resPre_not_prefix_callKey (e : String) (t : Nat) (e' : String) :
    (resPre e t).isPrefixOf (callKey e') = false :=
  not_prefix_of_head_ne (by decide) _ _

theorem resPre_not_prefix_lockKey (e : String) (t : Nat) (e' : String) :
    (resPre e t).isPrefixOf (lockKey e') = false :=
  not_prefix_of_head_ne (by decide) _ _

section AssocLemmas2

variable {κ β : Type} [DecidableEq κ]

theorem filter_key_map_set (s : List (κ × β)) (k : κ) (v : β) (q : κ → Bool)
    (hk : q k = false) :
    (s.map (fun p => if p.1 = k then (k, v) else p)).filter (fun p => q p.1) =
      s.filter (fun p => q p.1) := by
  induction s with
  | nil => simp
  | cons p ps ih =>
    rw [List.map_cons]
    by_cases hp : p.1 = k
    · rw [if_pos hp]
      rw [List.filter_cons_of_neg (by simpa using hk),
        List.filter_cons_of_neg (by simp [hp, hk])]
      exact ih
    · rw [if_neg hp]
      by_cases hq : q p.1 = true
      · rw [List.filter_cons_of_pos (by simpa using hq),
          List.filter_cons_of_pos (by simpa using hq), ih]
      · rw [List.filter_cons_of_neg (by simpa using hq),
          List.filter_cons_of_neg (by simpa using hq)]
        exact ih

theorem alGet_upsert_isSome (m : List (κ × β)) (k k' : κ) (v : β) :
    (alGet (upsert m k v) k').isSome = true ↔
      k' = k ∨ (alGet m k').isSome = true := by
  by_cases hk : k' = k
  · subst hk
    rw [alGet_upsert_self]
    simp
  · rw [alGet_upsert_ne m k k' v hk]
    simp [hk]

end AssocLemmas2

theorem kvListByPre_kvSet_not_pre (s : KvStore) (k : KvKey) (v : Val)
    (pre : KvKey) (h : pre.isPrefixOf k = false) :
    kvListByPre (kvSet s k v) pre = kvListByPre s pre := by
  show kvListByPre (upsert s k v) pre = _
  unfold upsert kvListByPre
  split
  · exact filter_key_map_set s k v (fun x => pre.isPrefixOf x) h
  · rw [List.filter_append]
    rw [List.filter_cons_of_neg (by show ¬ pre.isPrefixOf k = true; rw [h]; simp)]
    simp

theorem loadToolResults_kvSet_not_pre (s : KvStore) (k : KvKey) (v : Val)
    (e : String) (t : Nat) (ids : List String)
    (h : (resPre e t).isPrefixOf k = false) :
    loadToolResults (kvSet s k v) e t ids = loadToolResults s e t ids := by
  unfold loadToolResults
  rw [kvListByPre_kvSet_not_pre s k v _ h]

theorem objGet_fragStep_isSome (acc : List (String × String)) (p : KvKey × Val)
    (id : String) :
    (objGet (fragStep acc p) id).isSome = true ↔
      (∃ r, p.2 = Val.frag id r) ∨ (objGet acc id).isSome = true := by
  rcases p with ⟨k, v⟩
  cases v with
  | callSt cs => simp [fragStep]
  | timerId tid => simp [fragStep]
  | lockV => simp [fragStep]
  | frag id2 r =>
    show (objGet (objSet acc id2 r) id).isSome = true ↔ _
    rw [alGet_upsert_isSome]
    constructor
    · rintro (h | h)
      · exact Or.inl ⟨r, by rw [h]⟩
      · exact Or.inr h
    · rintro (⟨r2, hr⟩ | h)
      · injection hr with h1 h2
        exact Or.inl h1.symm
      · exact Or.inr h

theorem foldl_fragStep_isSome (pairs : KvStore) :
    ∀ (acc : List (String × String)) (id : String),
    (objGet (pairs.foldl fragStep acc) id).isSome = true ↔
      (∃ p ∈ pairs, ∃ r, p.2 = Val.frag id r) ∨ (objGet acc id).isSome = true := by
  induction pairs with
  | nil =>
    intro acc id
    constructor
    · intro h
      exact Or.inr h
    · rintro (⟨q, hq, _⟩ | h)
      · exact absurd hq (List.not_mem_nil q)
      · exact h
  | cons p ps ih =>
    intro acc id
    rw [List.foldl_cons, ih, objGet_fragStep_isSome]
    constructor
    · rintro (⟨q, hq, r, hqr⟩ | (⟨r, hr⟩ | h))
      · exact Or.inl ⟨q, List.mem_cons_of_mem p hq, r, hqr⟩
      · exact Or.inl ⟨p, List.mem_cons_self p ps, r, hr⟩
      · exact Or.inr h
    · rintro (⟨q, hq, r, hqr⟩ | h)
      · rcases List.mem_cons.mp hq with hq | hq
        · subst hq
          exact Or.inr (Or.inl ⟨r, hqr⟩)
        · exact Or.inl ⟨q, hq, r, hqr⟩
      · exact Or.inr (Or.inr h)

/-- Completeness of aggregation, characterised: every expected identifier has
a fragment among the pairs matching the `result-<eventId>-<turn>-` prefix. -/
theorem haveAllResults_iff (s : KvStore) (e : String) (t : Nat)
    (ids : List String) :
    (loadToolResults s e t ids).haveAllResults = true ↔
      ∀ id ∈ ids, ∃ p ∈ kvListByPre s (resPre e t), ∃ r, p.2 = Val.frag id r := by
  unfold loadToolResults
  rw [List.all_eq_true]
  constructor
  · intro h id hid
    have h2 := (foldl_fragStep_isSome _ [] id).mp (h id hid)
    rcases h2 with h' | h'
    · exact h'
    · have hnone : objGet ([] : List (String × String)) id = none := rfl
      rw [hnone] at h'
      simp at h'
  · intro h id hid
    rw [foldl_fragStep_isSome]
    exact Or.inl (h id hid)

/-- A second store to the same `(eventId, turn, toolCallId)` triple replaces
the first one entirely: last-write-wins at the store level. -/
theorem storeToolResult_storeToolResult (s : KvStore) (e id r1 r2 : String)
    (t : Nat) :
    storeToolResult (storeToolResult s e id r1 t) e id r2 t =
      storeToolResult s e id r2 t :=
  upsert_upsert_same s (resKey e t id) (Val.frag id r1) (Val.frag id r2)

/-- Re-upserting an unchanged binding after an unrelated upsert is a no-op. -/
theorem upsert_absorb_after_ne {κ β : Type} [DecidableEq κ]
    (s : List (κ × β)) (k k' : κ) (v w : β) (h : ¬ k = k') :
    upsert (upsert (upsert s k v) k' w) k v = upsert (upsert s k v) k' w := by
  apply upsert_eq_self
  · intro p hp hpk
    have hp' : p ∈ upsert s k v := by
      rw [← mem_upsert_of_ne (upsert s k v) k' w p (by rw [hpk]; exact h)]
      exact hp
    exact mem_upsert_key s k v p hp' hpk
  · have h1 := upsert_any_key s k v
    rw [List.any_eq_true] at h1 ⊢
    rcases h1 with ⟨p, hp, hpk⟩
    rw [decide_eq_true_eq] at hpk
    refine ⟨p, ?_, by simp [hpk]⟩
    rw [mem_upsert_of_ne (upsert s k v) k' w p (by rw [hpk]; exact h)]
    exact hp

theorem sanitizeChars_allowed (l : List Char) :
    ∀ c ∈ sanitizeChars l, isAllowedChar c = true := by
  intro c hc
  unfold sanitizeChars at hc
  rw [List.mem_map] at hc
  rcases hc with ⟨d, _, hd⟩
  by_cases h : isAllowedChar d = true
  · rw [if_pos h] at hd
    rwa [← hd]
  · rw [if_neg h] at hd
    rw [← hd]
    decide

theorem mem_collapseUHAux (fuel : Nat) : ∀ (l : List Char) (c : Char),
    c ∈ collapseUHAux fuel l → c = '_' ∨ c ∈ l := by
  induction fuel with
  | zero =>
    intro l c hc
    cases l with
    | nil => exact Or.inr hc
    | cons c0 cs => exact Or.inr hc
  | succ f ih =>
    intro l c hc
    cases l with
    | nil => exact absurd hc (List.not_mem_nil c)
    | cons c0 cs =>
      unfold collapseUHAux at hc
      split at hc
      · rcases List.mem_cons.mp hc with hc | hc
        · exact Or.inl hc
        · rcases ih _ c hc with hc | hc
          · exact Or.inl hc
          · exact Or.inr (List.mem_cons_of_mem c0
              ((List.dropWhile_sublist isUH).subset hc))
      · rcases List.mem_cons.mp hc with hc | hc
        · exact Or.inr (by rw [hc]; exact List.mem_cons_self c0 _)
        · rcases ih _ c hc with hc | hc
          · exact Or.inl hc
          · exact Or.inr (List.mem_cons_of_mem c0 hc)

theorem mem_stripUH (l : List Char) (c : Char) (hc : c ∈ stripUH l) : c ∈ l := by
  unfold stripUH at hc
  rw [List.mem_reverse] at hc
  have h1 := (List.dropWhile_sublist isUH).subset hc
  rw [List.mem_reverse] at h1
  exact (List.dropWhile_sublist isUH).subset h1

/-- `handleModelResponse` on an end-of-turn message with final text and no
schema: finalize via `emitResult`. -/
theorem handleModelResponse_end_turn_no_schema (env : Env) (p : TurnParams)
    (msgs : List Message) (m : ModelMessage) (t : String)
    (hm : m.stopReason = "end_turn") (ht : lastTextOf m.content = some t)
    (ht0 : ¬ t = "") (hsch : p.schema = none) :
    handleModelResponse env p msgs m =
      (emitResult env p.pendingId (some t) none m.inputTokens m.outputTokens
        p.eventId, .ok ()) := by
  unfold handleModelResponse
  rw [hm, ht, hsch]
  simp [ht0]

/-- `handleModelResponse` on an unexpected stop reason: cancel the pending
event and discard the call state. -/
theorem handleModelResponse_other (env : Env) (p : TurnParams)
    (msgs : List Message) (m : ModelMessage)
    (h1 : ¬ m.stopReason = "end_turn") (h2 : ¬ m.stopReason = "tool_use") :
    handleModelResponse env p msgs m =
      (deleteCallState
        (cancelPending env p.pendingId "Unexpected response from model")
        p.eventId, .ok ()) := by
  unfold handleModelResponse
  rw [if_neg h1, if_neg h2]

/-- One loop iteration of `executeTurn` whose attempt yields a final
message: the response goes straight to `handleModelResponse` (not through
the `catch`). -/
theorem executeTurnGo_step_msg (p : TurnParams) (msgs : List Message)
    (f retryCount : Nat) (le : Option String) (env : Env) (m : ModelMessage)
    (rest : List ModelOutcome) (hor : env.oracle = ModelOutcome.msg m :: rest) :
    executeTurnGo p msgs (f + 1) env retryCount le =
      handleModelResponse
        { env with
            oracle := rest,
            requests := env.requests ++ [msgs],
            updates := if retryCount > 0 then
                env.updates ++ [(p.pendingId,
                  "Retrying API call... (attempt " ++ toString (retryCount + 1) ++ ")")]
              else env.updates }
        p msgs m := by
  obtain ⟨kv, tm, nt, orc, rq, wt, ud, cn, em, st, cc⟩ := env
  simp only at hor
  subst hor
  by_cases hrc : retryCount > 0
  · simp only [executeTurnGo, takeOutcome, updatePending, if_pos hrc]
  · simp only [executeTurnGo, takeOutcome, updatePending, if_neg hrc]

/-- One loop iteration whose attempt throws, with the error retryable and
fuel remaining: record the backoff wait and loop. -/
theorem executeTurnGo_step_err_cont (p : TurnParams) (msgs : List Message)
    (f retryCount : Nat) (le : Option String) (env : Env) (e : String)
    (rest : List ModelOutcome) (hor : env.oracle = ModelOutcome.err e :: rest)
    (hret : isRetryableMsg e = true) (hf : ¬ f = 0) :
    executeTurnGo p msgs (f + 1) env retryCount le =
      executeTurnGo p msgs f
        { env with
            oracle := rest,
            requests := env.requests ++ [msgs],
            updates := if retryCount > 0 then
                env.updates ++ [(p.pendingId,
                  "Retrying API call... (attempt " ++ toString (retryCount + 1) ++ ")")]
              else env.updates,
            waits := env.waits ++ [min (1000 * 2 ^ retryCount) 10000] }
        (retryCount + 1) (some e) := by
  obtain ⟨kv, tm, nt, orc, rq, wt, ud, cn, em, st, cc⟩ := env
  simp only at hor
  subst hor
  by_cases hrc : retryCount > 0
  · simp only [executeTurnGo, takeOutcome, updatePending, if_pos hrc]
    rw [if_neg (by push_neg; exact ⟨by simpa using hret, hf⟩)]
    simp
  · simp only [executeTurnGo, takeOutcome, updatePending, if_neg hrc]
    rw [if_neg (by push_neg; exact ⟨by simpa using hret, hf⟩)]
    simp

/-- One loop iteration whose attempt throws with a non-retryable error, or
with the retry budget exhausted: the loop exits through the failure code. -/
theorem executeTurnGo_step_err_exit (p : TurnParams) (msgs : List Message)
    (f retryCount : Nat) (le : Option String) (env : Env) (e : String)
    (rest : List ModelOutcome) (hor : env.oracle = ModelOutcome.err e :: rest)
    (hex : ¬ isRetryableMsg e = true ∨ f = 0) :
    executeTurnGo p msgs (f + 1) env retryCount le =
      executeTurnFail
        { env with
            oracle := rest,
            requests := env.requests ++ [msgs],
            updates := if retryCount > 0 then
                env.updates ++ [(p.pendingId,
                  "Retrying API call... (attempt " ++ toString (retryCount + 1) ++ ")")]
              else env.updates }
        p (some e) := by
  obtain ⟨kv, tm, nt, orc, rq, wt, ud, cn, em, st, cc⟩ := env
  simp only at hor
  subst hor
  by_cases hrc : retryCount > 0
  · simp only [executeTurnGo, takeOutcome, updatePending, if_pos hrc]
    rw [if_pos hex]
  · simp only [executeTurnGo, takeOutcome, updatePending, if_neg hrc]
    rw [if_pos hex]

/-- A transient-failure run: `errs` retryable thrown errors followed by a
successful end-of-turn message, within the retry budget, finalizes on the
last attempt with one request per attempt, the documented capped exponential
backoff waits, and usage taken from the successful message only. -/
theorem executeTurnGo_transient (p : TurnParams) (msgs : List Message)
    (m : ModelMessage) (rest : List ModelOutcome) (t : String)
    (hm : m.stopReason = "end_turn") (ht : lastTextOf m.content = some t)
    (ht0 : ¬ t = "") (hsch : p.schema = none) :
    ∀ (errs : List String) (env : Env) (fuel retryCount : Nat)
      (le : Option String),
    env.oracle = errs.map ModelOutcome.err ++ ModelOutcome.msg m :: rest →
    (∀ e ∈ errs, isRetryableMsg e = true) →
    errs.length + 1 ≤ fuel →
    (executeTurnGo p msgs fuel env retryCount le).2 = .ok () ∧
    (executeTurnGo p msgs fuel env retryCount le).1.oracle = rest ∧
    (executeTurnGo p msgs fuel env retryCount le).1.requests =
      env.requests ++ List.replicate (errs.length + 1) msgs ∧
    (executeTurnGo p msgs fuel env retryCount le).1.waits =
      env.waits ++ (List.range errs.length).map
        (fun i => min (1000 * 2 ^ (retryCount + i)) 10000) ∧
    (executeTurnGo p msgs fuel env retryCount le).1.emitted =
      env.emitted ++ [⟨p.pendingId, some t, none, m.inputTokens,
        m.outputTokens, p.eventId⟩] ∧
    (executeTurnGo p msgs fuel env retryCount le).1.kv = env.kv ∧
    (executeTurnGo p msgs fuel env retryCount le).1.cancelled = env.cancelled ∧
    (executeTurnGo p msgs fuel env retryCount le).1.continueCalls =
      env.continueCalls ∧
    (executeTurnGo p msgs fuel env retryCount le).1.timers = env.timers := by
  intro errs
  induction errs with
  | nil =>
    intro env fuel retryCount le hor hret hfuel
    match fuel, hfuel with
    | f + 1, _ =>
      rw [executeTurnGo_step_msg p msgs f retryCount le env m rest
        (by simpa using hor)]
      rw [handleModelResponse_end_turn_no_schema _ p msgs m t hm ht ht0 hsch]
      refine ⟨rfl, rfl, by simp [emitResult], by simp [emitResult], rfl, rfl,
        rfl, rfl, rfl⟩
  | cons e errs ih =>
    intro env fuel retryCount le hor hret hfuel
    match fuel, hfuel with
    | f + 1, hfu =>
      have hf : ¬ f = 0 := by
        simp only [List.length_cons] at hfu
        omega
      rw [executeTurnGo_step_err_cont p msgs f retryCount le env e
        (errs.map ModelOutcome.err ++ ModelOutcome.msg m :: rest)
        (by simpa using hor) (hret e (List.mem_cons_self e errs)) hf]
      have hih := ih
        { env with
            oracle := errs.map ModelOutcome.err ++ ModelOutcome.msg m :: rest,
            requests := env.requests ++ [msgs],
            updates := if retryCount > 0 then
                env.updates ++ [(p.pendingId,
                  "Retrying API call... (attempt " ++ toString (retryCount + 1) ++ ")")]
              else env.updates,
            waits := env.waits ++ [min (1000 * 2 ^ retryCount) 10000] }
        f (retryCount + 1) (some e) rfl
        (fun x hx => hret x (List.mem_cons_of_mem e hx))
        (by simp only [List.length_cons] at hfu; omega)
      refine ⟨hih.1, hih.2.1, ?_, ?_, ?_, ?_, ?_, ?_, ?_⟩
      · rw [hih.2.2.1]
        simp [List.replicate_succ, List.append_assoc]
      · rw [hih.2.2.2.1]
        show (env.waits ++ [min (1000 * 2 ^ retryCount) 10000]) ++ _ = _
        simp only [List.length_cons]
        rw [List.append_assoc, List.range_succ_eq_map, List.map_cons,
          List.map_map]
        have hcong : (List.range errs.length).map
            (fun i => min (1000 * 2 ^ (retryCount + 1 + i)) 10000) =
            (List.range errs.length).map
              ((fun i => min (1000 * 2 ^ (retryCount + i)) 10000) ∘ (· + 1)) := by
          apply List.map_congr_left
          intro i _
          show min (1000 * 2 ^ (retryCount + 1 + i)) 10000 =
            min (1000 * 2 ^ (retryCount + (i + 1))) 10000
          rw [show retryCount + 1 + i = retryCount + (i + 1) by omega]
        rw [hcong]
        rfl
      · rw [hih.2.2.2.2.1]
      · rw [hih.2.2.2.2.2.1]
      · rw [hih.2.2.2.2.2.2.1]
      · rw [hih.2.2.2.2.2.2.2.1]
      · rw [hih.2.2.2.2.2.2.2.2]

/-- One loop iteration with no oracle outcome left: behaves as a thrown,
non-retryable network error, so the loop exits through the failure code. -/
theorem executeTurnGo_step_empty (p : TurnParams) (msgs : List Message)
    (f retryCount : Nat) (le : Option String) (env : Env)
    (hor : env.oracle = []) :
    executeTurnGo p msgs (f + 1) env retryCount le =
      executeTurnFail
        { env with
            requests := env.requests ++ [msgs],
            updates := if retryCount > 0 then
                env.updates ++ [(p.pendingId,
                  "Retrying API call... (attempt " ++ toString (retryCount + 1) ++ ")")]
              else env.updates }
        p (some "No model response") := by
  obtain ⟨kv, tm, nt, orc, rq, wt, ud, cn, em, st, cc⟩ := env
  simp only at hor
  subst hor
  by_cases hrc : retryCount > 0
  · simp only [executeTurnGo, takeOutcome, updatePending, if_pos hrc]
    rw [if_pos (Or.inl (by decide))]
  · simp only [executeTurnGo, takeOutcome, updatePending, if_neg hrc]
    rw [if_pos (Or.inl (by decide))]

/-- When every remaining oracle outcome is a thrown error, `executeTurn`'s
loop always exits through the failure code: the pending event is cancelled
with the last error, and the persisted call state is deleted. -/
theorem executeTurnGo_allErr (p : TurnParams) (msgs : List Message) :
    ∀ (fuel : Nat) (env : Env) (retryCount : Nat) (le : Option String),
    (∀ o ∈ env.oracle, o.isErr = true) →
    ∃ msg, (executeTurnGo p msgs fuel env retryCount le).2 = .error msg ∧
      (executeTurnGo p msgs fuel env retryCount le).1.kv =
        kvDelete env.kv (callKey p.eventId) ∧
      (executeTurnGo p msgs fuel env retryCount le).1.cancelled =
        env.cancelled ++ [(p.pendingId, "API call failed: " ++ msg)] ∧
      (executeTurnGo p msgs fuel env retryCount le).1.emitted = env.emitted ∧
      (executeTurnGo p msgs fuel env retryCount le).1.continueCalls =
        env.continueCalls := by
  intro fuel
  induction fuel with
  | zero =>
    intro env retryCount le _
    exact ⟨le.getD "Unknown error", rfl, rfl, rfl, rfl, rfl⟩
  | succ f ih =>
    intro env retryCount le hall
    rcases hor : env.oracle with _ | ⟨o, rest⟩
    · rw [executeTurnGo_step_empty p msgs f retryCount le env hor]
      exact ⟨"No model response", rfl, rfl, rfl, rfl, rfl⟩
    · cases o with
      | msg m =>
        have hmem : ModelOutcome.msg m ∈ env.oracle := by
          rw [hor]
          exact List.mem_cons_self _ _
        exact absurd (hall (ModelOutcome.msg m) hmem)
          (by simp [ModelOutcome.isErr])
      | err e =>
        by_cases hcont : isRetryableMsg e = true ∧ ¬ f = 0
        · rw [executeTurnGo_step_err_cont p msgs f retryCount le env e rest
            hor hcont.1 hcont.2]
          have hih := ih
            { env with
                oracle := rest,
                requests := env.requests ++ [msgs],
                updates := if retryCount > 0 then
                    env.updates ++ [(p.pendingId,
                      "Retrying API call... (attempt " ++
                        toString (retryCount + 1) ++ ")")]
                  else env.updates,
                waits := env.waits ++ [min (1000 * 2 ^ retryCount) 10000] }
            (retryCount + 1) (some e)
            (fun o ho => hall o (by rw [hor]; exact List.mem_cons_of_mem _ ho))
          rcases hih with ⟨msg, h1, h2, h3, h4, h5⟩
          exact ⟨msg, h1, h2, h3, h4, h5⟩
        · rw [executeTurnGo_step_err_exit p msgs f retryCount le env e rest hor
            (by rcases Decidable.not_and_iff_or_not.mp hcont with h | h
                · exact Or.inl h
                · exact Or.inr (by simpa using h))]
          exact ⟨e, rfl, rfl, rfl, rfl, rfl⟩

theorem generateObjectGo_step_err (finalText : String) (p : GenParams)
    (fuel inT outT rc : Nat) (le : Option String) (env : Env) (e : String)
    (rest : List ModelOutcome) (hor : env.oracle = ModelOutcome.err e :: rest) :
    generateObjectGo finalText p (fuel + 1) env inT outT rc le =
      generateObjectGo finalText p fuel
        { env with
            oracle := rest,
            requests := env.requests ++ [stripThinking p.messages],
            updates := env.updates ++ [genNote p rc] }
        inT outT (rc + 1) (some e) := by
  obtain ⟨kv, tm, nt, orc, rq, wt, ud, cn, em, st, cc⟩ := env
  simp only at hor
  subst hor
  simp only [generateObjectGo, takeOutcome, updatePending, genNote]

theorem generateObjectGo_step_msg_fail (finalText : String) (p : GenParams)
    (fuel inT outT rc : Nat) (le : Option String) (env : Env)
    (m : ModelMessage) (rest : List ModelOutcome)
    (hor : env.oracle = ModelOutcome.msg m :: rest)
    (hfail : genAttemptFails p.schema (ModelOutcome.msg m) = true) :
    generateObjectGo finalText p (fuel + 1) env inT outT rc le =
      generateObjectGo finalText p fuel
        { env with
            oracle := rest,
            requests := env.requests ++ [stripThinking p.messages],
            updates := env.updates ++ [genNote p rc] }
        (inT + m.inputTokens) (outT + m.outputTokens) (rc + 1) le := by
  obtain ⟨kv, tm, nt, orc, rq, wt, ud, cn, em, st, cc⟩ := env
  simp only at hor
  subst hor
  simp only [genAttemptFails] at hfail
  by_cases hsr : m.stopReason = "tool_use"
  · rw [if_pos hsr] at hfail
    simp only [generateObjectGo, takeOutcome, updatePending, genNote, if_pos hsr]
    rcases hfi : firstToolUseInput m.content with _ | inp
    · rfl
    · rw [hfi] at hfail
      have hchk : p.schema.check inp = false := by simpa using hfail
      simp only [hchk]
      simp
  · rw [if_neg hsr] at hfail
    simp only [generateObjectGo, takeOutcome, updatePending, genNote, if_neg hsr]

theorem generateObjectGo_step_msg_ok (finalText : String) (p : GenParams)
    (fuel inT outT rc : Nat) (le : Option String) (env : Env)
    (m : ModelMessage) (rest : List ModelOutcome) (inp : String)
    (hor : env.oracle = ModelOutcome.msg m :: rest)
    (hsr : m.stopReason = "tool_use")
    (hfi : firstToolUseInput m.content = some inp)
    (hchk : p.schema.check inp = true) :
    generateObjectGo finalText p (fuel + 1) env inT outT rc le =
      (emitResult
        { env with
            oracle := rest,
            requests := env.requests ++ [stripThinking p.messages],
            updates := env.updates ++ [genNote p rc] }
        p.pendingId (some finalText) (some inp) (inT + m.inputTokens)
        (outT + m.outputTokens) p.parentEventId, .ok ()) := by
  obtain ⟨kv, tm, nt, orc, rq, wt, ud, cn, em, st, cc⟩ := env
  simp only at hor
  subst hor
  simp only [generateObjectGo, takeOutcome, updatePending, genNote, if_pos hsr]
  simp only [hfi]
  simp [hchk]

/-- A run of the extractor in which `pre` failing attempts are followed by a
message whose forced tool input validates, within the attempt budget: the
turn finalizes with the original text, the validated object, and token usage
accumulated over every attempt made (failed ones included). -/
theorem generateObjectGo_success (finalText : String) (p : GenParams)
    (m : ModelMessage) (rest : List ModelOutcome) (inp : String)
    (hsr : m.stopReason = "tool_use")
    (hfi : firstToolUseInput m.content = some inp)
    (hchk : p.schema.check inp = true) :
    ∀ (pre : List ModelOutcome) (env : Env) (fuel inT outT rc : Nat)
      (le : Option String),
    env.oracle = pre ++ ModelOutcome.msg m :: rest →
    (∀ o ∈ pre, genAttemptFails p.schema o = true) →
    pre.length + 1 ≤ fuel →
    (generateObjectGo finalText p fuel env inT outT rc le).2 = .ok () ∧
    (generateObjectGo finalText p fuel env inT outT rc le).1.oracle = rest ∧
    (generateObjectGo finalText p fuel env inT outT rc le).1.emitted =
      env.emitted ++ [⟨p.pendingId, some finalText, some inp,
        inT + (pre.map outcomeInTok).sum + m.inputTokens,
        outT + (pre.map outcomeOutTok).sum + m.outputTokens,
        p.parentEventId⟩] ∧
    (generateObjectGo finalText p fuel env inT outT rc le).1.cancelled =
      env.cancelled ∧
    (generateObjectGo finalText p fuel env inT outT rc le).1.kv = env.kv ∧
    (generateObjectGo finalText p fuel env inT outT rc le).1.requests =
      env.requests ++ List.replicate (pre.length + 1) (stripThinking p.messages) ∧
    (generateObjectGo finalText p fuel env inT outT rc le).1.continueCalls =
      env.continueCalls := by
  intro pre
  induction pre with
  | nil =>
    intro env fuel inT outT rc le hor hfails hfuel
    match fuel, hfuel with
    | f + 1, _ =>
      rw [generateObjectGo_step_msg_ok finalText p f inT outT rc le env m rest
        inp (by simpa using hor) hsr hfi hchk]
      refine ⟨rfl, rfl, by simp [emitResult], rfl, rfl, by simp [emitResult],
        rfl⟩
  | cons o pre ih =>
    intro env fuel inT outT rc le hor hfails hfuel
    match fuel, hfuel with
    | f + 1, hfu =>
      have hlen : pre.length + 1 ≤ f := by
        simp only [List.length_cons] at hfu
        omega
      cases o with
      | err e =>
        rw [generateObjectGo_step_err finalText p f inT outT rc le env e
          (pre ++ ModelOutcome.msg m :: rest) (by simpa using hor)]
        have hih := ih
          { env with
              oracle := pre ++ ModelOutcome.msg m :: rest,
              requests := env.requests ++ [stripThinking p.messages],
              updates := env.updates ++ [genNote p rc] }
          f inT outT (rc + 1) (some e) rfl
          (fun x hx => hfails x (List.mem_cons_of_mem _ hx)) hlen
        refine ⟨hih.1, hih.2.1, ?_, hih.2.2.2.1, hih.2.2.2.2.1, ?_,
          hih.2.2.2.2.2.2⟩
        · rw [hih.2.2.1]
          simp [outcomeInTok, outcomeOutTok]
        · rw [hih.2.2.2.2.2.1]
          simp [List.replicate_succ, List.append_assoc]
      | msg m2 =>
        rw [generateObjectGo_step_msg_fail finalText p f inT outT rc le env m2
          (pre ++ ModelOutcome.msg m :: rest) (by simpa using hor)
          (hfails _ (List.mem_cons_self _ _))]
        have hih := ih
          { env with
              oracle := pre ++ ModelOutcome.msg m :: rest,
              requests := env.requests ++ [stripThinking p.messages],
              updates := env.updates ++ [genNote p rc] }
          f (inT + m2.inputTokens) (outT + m2.outputTokens) (rc + 1) le rfl
          (fun x hx => hfails x (List.mem_cons_of_mem _ hx)) hlen
        refine ⟨hih.1, hih.2.1, ?_, hih.2.2.2.1, hih.2.2.2.2.1, ?_,
          hih.2.2.2.2.2.2⟩
        · rw [hih.2.2.1]
          have h1 : inT + m2.inputTokens + (pre.map outcomeInTok).sum =
              inT + ((ModelOutcome.msg m2 :: pre).map outcomeInTok).sum := by
            simp [outcomeInTok]
            omega
          have h2 : outT + m2.outputTokens + (pre.map outcomeOutTok).sum =
              outT + ((ModelOutcome.msg m2 :: pre).map outcomeOutTok).sum := by
            simp [outcomeOutTok]
            omega
          rw [h1, h2]
        · rw [hih.2.2.2.2.2.1]
          simp [List.replicate_succ, List.append_assoc]

/-- A run of the extractor in which every attempt in the budget fails: the
pending event is cancelled with the last caught transport error if one
occurred (and that error is re-thrown), otherwise with the generic
"Failed to generate object" message (returning normally). -/
theorem generateObjectGo_exhaust (finalText : String) (p : GenParams) :
    ∀ (pre rest : List ModelOutcome) (env : Env) (fuel inT outT rc : Nat)
      (le : Option String),
    env.oracle = pre ++ rest →
    pre.length = fuel →
    (∀ o ∈ pre, genAttemptFails p.schema o = true) →
    (generateObjectGo finalText p fuel env inT outT rc le).2 =
      (match lastErrFrom le pre with
       | some e => .error e
       | none => .ok ()) ∧
    (generateObjectGo finalText p fuel env inT outT rc le).1.oracle = rest ∧
    (generateObjectGo finalText p fuel env inT outT rc le).1.cancelled =
      env.cancelled ++ [(p.pendingId,
        match lastErrFrom le pre with
        | some e => "Object generation failed: " ++ e
        | none => "Failed to generate object")] ∧
    (generateObjectGo finalText p fuel env inT outT rc le).1.emitted =
      env.emitted ∧
    (generateObjectGo finalText p fuel env inT outT rc le).1.kv = env.kv ∧
    (generateObjectGo finalText p fuel env inT outT rc le).1.continueCalls =
      env.continueCalls := by
  intro pre
  induction pre with
  | nil =>
    intro rest env fuel inT outT rc le hor hlen hfails
    match fuel, hlen with
    | 0, _ =>
      cases le with
      | none =>
        exact ⟨rfl, by simpa using hor, rfl, rfl, rfl, rfl⟩
      | some e =>
        exact ⟨rfl, by simpa using hor, rfl, rfl, rfl, rfl⟩
  | cons o pre ih =>
    intro rest env fuel inT outT rc le hor hlen hfails
    match fuel, hlen with
    | f + 1, hl =>
      have hlen2 : pre.length = f := by
        simp only [List.length_cons] at hl
        omega
      cases o with
      | err e =>
        rw [generateObjectGo_step_err finalText p f inT outT rc le env e
          (pre ++ rest) (by simpa using hor)]
        have hih := ih rest
          { env with
              oracle := pre ++ rest,
              requests := env.requests ++ [stripThinking p.messages],
              updates := env.updates ++ [genNote p rc] }
          f inT outT (rc + 1) (some e) rfl hlen2
          (fun x hx => hfails x (List.mem_cons_of_mem _ hx))
        exact ⟨hih.1, hih.2.1, hih.2.2.1, hih.2.2.2.1, hih.2.2.2.2.1,
          hih.2.2.2.2.2⟩
      | msg m2 =>
        rw [generateObjectGo_step_msg_fail finalText p f inT outT rc le env m2
          (pre ++ rest) (by simpa using hor)
          (hfails _ (List.mem_cons_self _ _))]
        have hih := ih rest
          { env with
              oracle := pre ++ rest,
              requests := env.requests ++ [stripThinking p.messages],
              updates := env.updates ++ [genNote p rc] }
          f (inT + m2.inputTokens) (outT + m2.outputTokens) (rc + 1) le rfl
          hlen2 (fun x hx => hfails x (List.mem_cons_of_mem _ hx))
        exact ⟨hih.1, hih.2.1, hih.2.2.1, hih.2.2.2.1, hih.2.2.2.2.1,
          hih.2.2.2.2.2⟩

theorem clearTimeoutTimer_kv (env : Env) (e : String) :
    (clearTimeoutTimer env e).kv = env.kv := by
  unfold clearTimeoutTimer
  split <;> rfl

theorem clearTimeoutTimer_emitted (env : Env) (e : String) :
    (clearTimeoutTimer env e).emitted = env.emitted := by
  unfold clearTimeoutTimer
  split <;> rfl

theorem clearTimeoutTimer_continueCalls (env : Env) (e : String) :
    (clearTimeoutTimer env e).continueCalls = env.continueCalls := by
  unfold clearTimeoutTimer
  split <;> rfl

theorem clearTimeoutTimer_oracle (env : Env) (e : String) :
    (clearTimeoutTimer env e).oracle = env.oracle := by
  unfold clearTimeoutTimer
  split <;> rfl

theorem kvGet_kvSet_self (s : KvStore) (k : KvKey) (v : Val) :
    kvGet (kvSet s k v) k = some v :=
  alGet_upsert_self s k v

theorem kvGet_kvSet_ne (s : KvStore) (k k' : KvKey) (v : Val)
    (h : ¬ k' = k) : kvGet (kvSet s k v) k' = kvGet s k' :=
  alGet_upsert_ne s k k' v h

theorem kvGet_kvDelete_self (s : KvStore) (k : KvKey) :
    kvGet (kvDelete s k) k = none :=
  alGet_alDelete_self s k

theorem kvGet_kvDelete_ne (s : KvStore) (k k' : KvKey) (h : ¬ k' = k) :
    kvGet (kvDelete s k) k' = kvGet s k' :=
  alGet_alDelete_ne s k k' h

theorem kvSet_kvSet_same (s : KvStore) (k : KvKey) (v w : Val) :
    kvSet (kvSet s k v) k w = kvSet s k w :=
  upsert_upsert_same s k v w

theorem loadCallStateE_kvSet_ne (s : KvStore) (k : KvKey) (v : Val)
    (e : String) (h : ¬ callKey e = k) :
    loadCallStateE (kvSet s k v) e = loadCallStateE s e := by
  unfold loadCallStateE
  rw [kvGet_kvSet_ne s k (callKey e) v h]

theorem isTimerLocked_kvSet_ne (s : KvStore) (k : KvKey) (v : Val)
    (e : String) (h : ¬ lockKey e = k) :
    isTimerLocked (kvSet s k v) e = isTimerLocked s e := by
  unfold isTimerLocked
  rw [kvGet_kvSet_ne s k (lockKey e) v h]

/-- C10: for every input string, `cleanToolName` returns a string of length
at most 64 whose characters are only lowercase ASCII letters, digits,
underscores and hyphens (possibly empty), so every tool name sent to the
model satisfies the API's `^[a-zA-Z0-9_-]{1,64}$`-style character-set and
length constraint (up to non-emptiness, which the source does not enforce). -/
theorem C10_cleanToolName_wellformed (s : String) :
    (cleanToolName s).length ≤ 64 ∧
    (cleanToolName s).data.all isAllowedChar = true := by
  constructor
  · show (List.take 64 _).length ≤ 64
    exact List.length_take_le 64 _
  · rw [List.all_eq_true]
    intro c hc
    have hc1 : c ∈ stripUH (collapseUH (sanitizeChars (collapseWs
        ((trimChars s.data).map Char.toLower)))) := List.take_subset _ _ hc
    have hc2 := mem_stripUH _ _ hc1
    rcases mem_collapseUHAux _ _ _ hc2 with h | h
    · rw [h]
      decide
    · exact sanitizeChars_allowed _ c h

/-- C6 counterexample: fragment storage is not write-once.  Storing payload
"a" and then payload "b" under the same (eventId, turn, toolCallId) triple
makes aggregation return "b": the later store changed the payload. -/
theorem C6_counterexample :
    objGet (loadToolResults
        (storeToolResult (storeToolResult [] "e" "t1" "a" 0) "e" "t1" "b" 0)
        "e" 0 ["t1"]).toolResults "t1" = some "b" ∧
    ¬ objGet (loadToolResults
        (storeToolResult (storeToolResult [] "e" "t1" "a" 0) "e" "t1" "b" 0)
        "e" 0 ["t1"]).toolResults "t1" = some "a" := by
  constructor
  · decide
  · decide

/-- C6 amended: fragment storage is last-write-wins, not write-once: a later
store to the same (eventId, turn, toolCallId) triple replaces the stored
fragment entirely (hence aggregation returns the newer payload; re-storing
an identical payload is a no-op). -/
theorem C6_last_write_wins (s : KvStore) (e id r1 r2 : String) (t : Nat) :
    storeToolResult (storeToolResult s e id r1 t) e id r2 t =
      storeToolResult s e id r2 t :=
  storeToolResult_storeToolResult s e id r1 r2 t

/-- C9 counterexample: registering a second timeout for the same conversation
does not cancel the first scheduled timer: both timers 0 and 1 remain active,
and only the second handle is stored. -/
theorem C9_counterexample :
    (setTimeoutTimer (setTimeoutTimer emptyEnv "e") "e").timers = [0, 1] ∧
    kvGet (setTimeoutTimer (setTimeoutTimer emptyEnv "e") "e").kv
      (timerKey "e") = some (Val.timerId 1) := by
  constructor
  · decide
  · rfl

/-- C9 amended: registering a new timeout schedules a fresh timer and
overwrites the stored handle, but does not cancel the previously scheduled
timer (so two scheduled timers can coexist); clearing a timeout when no
handle is stored is a no-op. -/
theorem C9_timeout_registration :
    (∀ (env : Env) (e : String),
      (setTimeoutTimer env e).timers = env.timers ++ [env.nextTimer] ∧
      kvGet (setTimeoutTimer env e).kv (timerKey e) =
        some (Val.timerId env.nextTimer)) ∧
    (∀ (env : Env) (e : String),
      kvGet env.kv (timerKey e) = none → clearTimeoutTimer env e = env) := by
  constructor
  · intro env e
    exact ⟨rfl, kvGet_kvSet_self env.kv (timerKey e) (Val.timerId env.nextTimer)⟩
  · intro env e h
    unfold clearTimeoutTimer
    rw [h]

/-- C9 witness: the amended statement instantiated at the empty environment. -/
theorem C9_timeout_registration_witness :
    ((setTimeoutTimer emptyEnv "e").timers = emptyEnv.timers ++ [emptyEnv.nextTimer] ∧
      kvGet (setTimeoutTimer emptyEnv "e").kv (timerKey "e") =
        some (Val.timerId emptyEnv.nextTimer)) ∧
    clearTimeoutTimer emptyEnv "e" = emptyEnv :=
  ⟨C9_timeout_registration.1 emptyEnv "e",
   C9_timeout_registration.2 emptyEnv "e" rfl⟩

/-- C5: while the Race Guard lock is held for an eventId, the async
tool-result handler performs no state mutation at all and returns
immediately: the environment is returned unchanged. -/
theorem C5_locked_handler_noop (env : Env)
    (apiKey blockId eventId toolCallId result : String)
    (h : isTimerLocked env.kv eventId = true) :
    onInternalMessage env apiKey blockId eventId toolCallId result =
      (env, .ok ()) := by
  unfold onInternalMessage
  rw [if_pos h]

/-- C5 witness: the handler is a no-op on a concrete locked environment. -/
theorem C5_locked_handler_noop_witness :
    onInternalMessage envLocked "k" "b" "e" "t1" "42" = (envLocked, .ok ()) :=
  C5_locked_handler_noop envLocked "k" "b" "e" "t1" "42" rfl

/-- C4 counterexample: the key encoding is not injective across
conversations, so the "exact (eventId, turn) pair" reading of completeness
fails.  The only fragment in the store was written by `storeToolResult` for
eventId "a", turn 1, toolCallId "2-x" (key `result-a-1-2-x`), yet
aggregation for eventId "a-1", turn 2, expected id "2-x" (prefix
`result-a-1-2-`) reports `haveAllResults = true`. -/
theorem C4_counterexample :
    (loadToolResults (storeToolResult [] "a" "2-x" "r" 1) "a-1" 2
      ["2-x"]).haveAllResults = true ∧
    storeToolResult [] "a" "2-x" "r" 1 =
      [(resKey "a" 1 "2-x", Val.frag "2-x" "r")] := by
  constructor
  · decide
  · rfl

/-- C4 amended: `loadToolResults` reports completeness iff every expected
identifier appears as the `toolCallId` of a stored fragment whose key
extends the `result-<eventId>-<turn>-` prefix (which, for a fixed eventId,
is met by fragments of that conversation only for the exact turn number: a
fragment key written under a different turn never matches the prefix).
`loadToolResults` itself is a pure read of the store. -/
theorem C4_aggregation_completeness :
    (∀ (s : KvStore) (e : String) (t : Nat) (ids : List String),
      (loadToolResults s e t ids).haveAllResults = true ↔
        ∀ id ∈ ids, ∃ p ∈ kvListByPre s (resPre e t), ∃ r,
          p.2 = Val.frag id r) ∧
    (∀ (e : String) (t t' : Nat) (id : String), ¬ t = t' →
      (resPre e t).isPrefixOf (resKey e t' id) = false) := by
  constructor
  · exact haveAllResults_iff
  · intro e t t' id h
    exact resPre_not_prefix_of_other_turn e t t' id h

/-- C4 witness: the amended statement instantiated at a concrete store, and
the cross-turn non-matching fact at turns 1 and 2. -/
theorem C4_aggregation_completeness_witness :
    ((loadToolResults (storeToolResult [] "a" "x" "r" 1) "a" 1
        ["x"]).haveAllResults = true ↔
      ∀ id ∈ ["x"], ∃ p ∈ kvListByPre (storeToolResult [] "a" "x" "r" 1)
        (resPre "a" 1), ∃ r, p.2 = Val.frag id r) ∧
    (resPre "a" 1).isPrefixOf (resKey "a" 2 "x") = false :=
  ⟨C4_aggregation_completeness.1 (storeToolResult [] "a" "x" "r" 1) "a" 1 ["x"],
   C4_aggregation_completeness.2 "a" 1 2 "x" (by decide)⟩

/-- C1 counterexample: the timeout handler does not release the Race Guard
on every exit branch.  On an environment with no stored call state, the
handler throws "Call state not found" after acquiring the lock, and the lock
is still held when it returns. -/
theorem C1_counterexample :
    (onTimer emptyEnv "k" "b" "e").2 = .error "Call state not found" ∧
    isTimerLocked (onTimer emptyEnv "k" "b" "e").1.kv "e" = true := by
  constructor
  · rfl
  · decide

theorem isTimerLocked_clearTimerLock (env : Env) (e : String) :
    isTimerLocked (clearTimerLock env e).kv e = false := by
  unfold isTimerLocked clearTimerLock
  show (match kvGet (kvDelete env.kv (lockKey e)) (lockKey e) with
        | some Val.lockV => true
        | _ => false) = false
  rw [kvGet_kvDelete_self]

/-- C1 amended: whenever the timeout handler returns normally (the
incomplete-aggregation exit and the successful-resumption exit), the Race
Guard lock is released before it returns; when loading the call state or
resuming the turn raises an error, the handler propagates the error without
releasing the lock (the lock then only goes away via its TTL). -/
theorem C1_lock_released_on_normal_return (env : Env)
    (apiKey blockId eventId : String)
    (h : (onTimer env apiKey blockId eventId).2 = .ok ()) :
    isTimerLocked (onTimer env apiKey blockId eventId).1.kv eventId = false := by
  simp only [onTimer] at h ⊢
  rcases hcs : loadCallStateE (setTimerLock env eventId).kv eventId with e' | cs
  · rw [hcs] at h
    exact absurd h (by simp)
  · rw [hcs] at h
    by_cases hagg : (loadToolResults (setTimerLock env eventId).kv eventId
        cs.turn cs.toolCallIds).haveAllResults = true
    · simp only [hagg, if_true] at h ⊢
      rcases hct : continueTurn (setTimerLock env eventId)
          (paramsOfCallState cs eventId apiKey blockId) cs.messages
          cs.toolCallIds (loadToolResults (setTimerLock env eventId).kv
            eventId cs.turn cs.toolCallIds).toolResults with ⟨env2, r⟩
      rw [hct] at h
      cases r with
      | error e2 => exact Except.noConfusion h
      | ok u => exact isTimerLocked_clearTimerLock env2 eventId
    · simp only [hagg, if_false] at h ⊢
      show isTimerLocked (cancelPending (clearTimerLock (setTimerLock env
        eventId) eventId) cs.pendingId "Timeout").kv eventId = false
      exact isTimerLocked_clearTimerLock _ eventId

/-- C1 witness: on a concrete suspended conversation with incomplete
results, the timeout handler returns normally and the lock is released. -/
theorem C1_lock_released_on_normal_return_witness :
    isTimerLocked (onTimer envSusB "k" "b" "e").1.kv "e" = false :=
  C1_lock_released_on_normal_return envSusB "k" "b" "e" rfl

/-- C3 counterexample: the path that successfully resumes and finalizes a
suspended turn does not delete the stored call state.  Delivering the one
outstanding tool result resumes and finalizes the turn (one result emitted,
normal return), yet `call-e` is still stored afterwards. -/
theorem C3_counterexample :
    (onInternalMessage envSusA "k" "b" "e" "t1" "42").2 = .ok () ∧
    (onInternalMessage envSusA "k" "b" "e" "t1" "42").1.emitted.length = 1 ∧
    (kvGet (onInternalMessage envSusA "k" "b" "e" "t1" "42").1.kv
      (callKey "e")).isSome = true := by
  refine ⟨rfl, by decide, by decide⟩

/-- C3 amended: the fatal terminations named by the claim do discard the
persisted call state: a response with an unexpected stop reason cancels the
pending event and deletes the call state, and when the upstream call keeps
failing (exhausted retries or a non-transient error) the turn fails with the
last error, cancels the pending event and deletes the call state.  The
successful finalization path, by contrast, leaves the call state in place
(see the counterexample). -/
theorem C3_fatal_termination_discards_state :
    (∀ (env : Env) (p : TurnParams) (msgs : List Message) (m : ModelMessage),
      ¬ m.stopReason = "end_turn" → ¬ m.stopReason = "tool_use" →
      (handleModelResponse env p msgs m).2 = .ok () ∧
      kvGet (handleModelResponse env p msgs m).1.kv (callKey p.eventId) =
        none ∧
      (handleModelResponse env p msgs m).1.cancelled = env.cancelled ++
        [(p.pendingId, "Unexpected response from model")]) ∧
    (∀ (env : Env) (p : TurnParams) (msgs : List Message),
      (∀ o ∈ env.oracle, o.isErr = true) →
      ∃ msg, (executeTurn env p msgs).2 = .error msg ∧
        kvGet (executeTurn env p msgs).1.kv (callKey p.eventId) = none ∧
        (executeTurn env p msgs).1.cancelled = env.cancelled ++
          [(p.pendingId, "API call failed: " ++ msg)]) := by
  constructor
  · intro env p msgs m h1 h2
    rw [handleModelResponse_other env p msgs m h1 h2]
    exact ⟨rfl, kvGet_kvDelete_self _ _, rfl⟩
  · intro env p msgs hall
    rcases executeTurnGo_allErr p msgs p.maxRetries env 0 none hall with
      ⟨msg, h1, h2, h3, _, _⟩
    refine ⟨msg, h1, ?_, h3⟩
    rw [show (executeTurn env p msgs).1.kv =
      (executeTurnGo p msgs p.maxRetries env 0 none).1.kv from rfl, h2]
    exact kvGet_kvDelete_self _ _

/-- C3 witness: both fatal branches at concrete inputs: a "max_tokens" stop
reason, and an oracle consisting of one thrown error. -/
theorem C3_fatal_termination_discards_state_witness :
    ((handleModelResponse emptyEnv pA [] mMax).2 = .ok () ∧
      kvGet (handleModelResponse emptyEnv pA [] mMax).1.kv (callKey "e") =
        none ∧
      (handleModelResponse emptyEnv pA [] mMax).1.cancelled =
        emptyEnv.cancelled ++ [("p", "Unexpected response from model")]) ∧
    (∃ msg,
      (executeTurn { emptyEnv with oracle := [.err "boom"] } pA []).2 =
        .error msg ∧
      kvGet (executeTurn { emptyEnv with oracle := [.err "boom"] } pA
        []).1.kv (callKey "e") = none ∧
      (executeTurn { emptyEnv with oracle := [.err "boom"] } pA
        []).1.cancelled = { emptyEnv with oracle := [.err "boom"] }.cancelled
          ++ [("p", "API call failed: " ++ msg)]) :=
  ⟨C3_fatal_termination_discards_state.1 emptyEnv pA [] mMax (by decide)
    (by decide),
   C3_fatal_termination_discards_state.2 { emptyEnv with oracle := [.err "boom"] }
    pA [] (by decide)⟩

/-- C7: for a plain turn (no schema), a run of N transient upstream failures
followed by a success, with N + 1 within the retry budget, makes exactly
N + 1 attempts (one request each), waits 1000·2^(k−1) ms capped at 10000 ms
before retry k, succeeds, and reports token usage taken only from the
successful attempt's response; a non-transient failure is never retried and
fails the turn immediately with that error. -/
theorem C7_retry_policy :
    (∀ (env : Env) (p : TurnParams) (msgs : List Message) (errs : List String)
       (m : ModelMessage) (rest : List ModelOutcome) (t : String),
      p.schema = none → m.stopReason = "end_turn" →
      lastTextOf m.content = some t → ¬ t = "" →
      env.oracle = errs.map ModelOutcome.err ++ ModelOutcome.msg m :: rest →
      (∀ e ∈ errs, isRetryableMsg e = true) →
      errs.length + 1 ≤ p.maxRetries →
      (executeTurn env p msgs).2 = .ok () ∧
      (executeTurn env p msgs).1.oracle = rest ∧
      (executeTurn env p msgs).1.requests =
        env.requests ++ List.replicate (errs.length + 1) msgs ∧
      (executeTurn env p msgs).1.waits =
        env.waits ++ (List.range errs.length).map
          (fun k => min (1000 * 2 ^ k) 10000) ∧
      (executeTurn env p msgs).1.emitted = env.emitted ++
        [⟨p.pendingId, some t, none, m.inputTokens, m.outputTokens,
          p.eventId⟩]) ∧
    (∀ (env : Env) (p : TurnParams) (msgs : List Message) (e : String)
       (rest : List ModelOutcome),
      env.oracle = ModelOutcome.err e :: rest →
      isRetryableMsg e = false → 1 ≤ p.maxRetries →
      (executeTurn env p msgs).2 = .error e ∧
      (executeTurn env p msgs).1.requests = env.requests ++ [msgs] ∧
      (executeTurn env p msgs).1.waits = env.waits ∧
      (executeTurn env p msgs).1.cancelled = env.cancelled ++
        [(p.pendingId, "API call failed: " ++ e)]) := by
  constructor
  · intro env p msgs errs m rest t hsch hm ht ht0 hor hret hfuel
    unfold executeTurn
    have h := executeTurnGo_transient p msgs m rest t hm ht ht0 hsch errs env
      p.maxRetries 0 none hor hret hfuel
    refine ⟨h.1, h.2.1, h.2.2.1, ?_, h.2.2.2.2.1⟩
    rw [h.2.2.2.1]
    congr 1
    apply List.map_congr_left
    intro i _
    rw [Nat.zero_add]
  · intro env p msgs e rest hor hret hmr
    unfold executeTurn
    rcases hmrv : p.maxRetries with _ | f
    · omega
    · rw [executeTurnGo_step_err_exit p msgs f 0 none env e rest hor
        (Or.inl (by rw [hret]; intro hc; cases hc))]
      exact ⟨rfl, rfl, rfl, rfl⟩

/-- C7 witness: one transient "overloaded" failure then success within a
budget of two attempts, and a non-transient failure failing immediately. -/
theorem C7_retry_policy_witness :
    ((executeTurn { emptyEnv with oracle := [.err "Overloaded", .msg mDone] }
        pB []).2 = .ok () ∧
      (executeTurn { emptyEnv with oracle := [.err "Overloaded", .msg mDone] }
        pB []).1.oracle = [] ∧
      (executeTurn { emptyEnv with oracle := [.err "Overloaded", .msg mDone] }
        pB []).1.requests = { emptyEnv with
          oracle := [.err "Overloaded", .msg mDone] }.requests ++
        List.replicate 2 [] ∧
      (executeTurn { emptyEnv with oracle := [.err "Overloaded", .msg mDone] }
        pB []).1.waits = { emptyEnv with
          oracle := [.err "Overloaded", .msg mDone] }.waits ++
        (List.range 1).map (fun k => min (1000 * 2 ^ k) 10000) ∧
      (executeTurn { emptyEnv with oracle := [.err "Overloaded", .msg mDone] }
        pB []).1.emitted = { emptyEnv with
          oracle := [.err "Overloaded", .msg mDone] }.emitted ++
        [⟨"p", some "done", none, 5, 3, "e"⟩]) ∧
    ((executeTurn { emptyEnv with oracle := [.err "invalid api key"] } pA
        []).2 = .error "invalid api key" ∧
      (executeTurn { emptyEnv with oracle := [.err "invalid api key"] } pA
        []).1.requests = { emptyEnv with
          oracle := [.err "invalid api key"] }.requests ++ [[]] ∧
      (executeTurn { emptyEnv with oracle := [.err "invalid api key"] } pA
        []).1.waits = { emptyEnv with oracle := [.err "invalid api key"] }.waits ∧
      (executeTurn { emptyEnv with oracle := [.err "invalid api key"] } pA
        []).1.cancelled = { emptyEnv with
          oracle := [.err "invalid api key"] }.cancelled ++
        [("p", "API call failed: " ++ "invalid api key")]) :=
  ⟨C7_retry_policy.1 { emptyEnv with oracle := [.err "Overloaded", .msg mDone] }
      pB [] ["Overloaded"] mDone [] "done" rfl rfl rfl (by decide) rfl
      (by decide) (by decide),
   C7_retry_policy.2 { emptyEnv with oracle := [.err "invalid api key"] } pA
      [] "invalid api key" [] rfl (by decide) (by decide)⟩

/-- C8: the structured-object extractor makes at most `maxRetries` attempts;
the first attempt whose forced "json" tool input validates finalizes the
turn with the original final text, that validated object, and token usage
summed over all attempts made so far (completed failed attempts included);
if every attempt in the budget fails, the turn fails with the last caught
error's message ("Object generation failed: ...", re-thrown) if one
occurred, else with the generic "Failed to generate object" message. -/
theorem C8_generateObject_policy :
    (∀ (env : Env) (finalText : String) (gp : GenParams)
       (pre : List ModelOutcome) (m : ModelMessage) (rest : List ModelOutcome)
       (inp : String) (inT outT : Nat),
      env.oracle = pre ++ ModelOutcome.msg m :: rest →
      (∀ o ∈ pre, genAttemptFails gp.schema o = true) →
      pre.length + 1 ≤ gp.maxRetries →
      m.stopReason = "tool_use" →
      firstToolUseInput m.content = some inp →
      gp.schema.check inp = true →
      (generateObject env finalText gp inT outT).2 = .ok () ∧
      (generateObject env finalText gp inT outT).1.oracle = rest ∧
      (generateObject env finalText gp inT outT).1.emitted =
        env.emitted ++ [⟨gp.pendingId, some finalText, some inp,
          inT + (pre.map outcomeInTok).sum + m.inputTokens,
          outT + (pre.map outcomeOutTok).sum + m.outputTokens,
          gp.parentEventId⟩] ∧
      (generateObject env finalText gp inT outT).1.cancelled =
        env.cancelled) ∧
    (∀ (env : Env) (finalText : String) (gp : GenParams)
       (pre rest : List ModelOutcome) (inT outT : Nat),
      env.oracle = pre ++ rest →
      pre.length = gp.maxRetries →
      (∀ o ∈ pre, genAttemptFails gp.schema o = true) →
      (generateObject env finalText gp inT outT).2 =
        (match lastErrFrom none pre with
         | some e => .error e
         | none => .ok ()) ∧
      (generateObject env finalText gp inT outT).1.oracle = rest ∧
      (generateObject env finalText gp inT outT).1.cancelled =
        env.cancelled ++ [(gp.pendingId,
          match lastErrFrom none pre with
          | some e => "Object generation failed: " ++ e
          | none => "Failed to generate object")] ∧
      (generateObject env finalText gp inT outT).1.emitted = env.emitted) := by
  constructor
  · intro env finalText gp pre m rest inp inT outT hor hfails hfuel hsr hfi hchk
    unfold generateObject
    have h := generateObjectGo_success finalText gp m rest inp hsr hfi hchk
      pre env gp.maxRetries inT outT 0 none hor hfails hfuel
    exact ⟨h.1, h.2.1, h.2.2.1, h.2.2.2.1⟩
  · intro env finalText gp pre rest inT outT hor hlen hfails
    unfold generateObject
    have h := generateObjectGo_exhaust finalText gp pre rest env gp.maxRetries
      inT outT 0 none hor hlen hfails
    exact ⟨h.1, h.2.1, h.2.2.1, h.2.2.2.1⟩

/-- C8 witness: a failed-validation attempt then a validating one within a
budget of two (usage summed over both), and a one-attempt budget exhausted
by a thrown error (failing with that error's message). -/
theorem C8_generateObject_policy_witness :
    ((generateObject { emptyEnv with oracle := [.msg mBad, .msg mGood] }
        "text" gpA 10 20).2 = .ok () ∧
      (generateObject { emptyEnv with oracle := [.msg mBad, .msg mGood] }
        "text" gpA 10 20).1.oracle = [] ∧
      (generateObject { emptyEnv with oracle := [.msg mBad, .msg mGood] }
        "text" gpA 10 20).1.emitted = { emptyEnv with
          oracle := [.msg mBad, .msg mGood] }.emitted ++
        [⟨"p", some "text", some "ok", 10 + ([ModelOutcome.msg mBad].map
          outcomeInTok).sum + 3, 20 + ([ModelOutcome.msg mBad].map
          outcomeOutTok).sum + 2, "e"⟩] ∧
      (generateObject { emptyEnv with oracle := [.msg mBad, .msg mGood] }
        "text" gpA 10 20).1.cancelled = { emptyEnv with
          oracle := [.msg mBad, .msg mGood] }.cancelled) ∧
    ((generateObject { emptyEnv with oracle := [.err "boom"] } "text" gpB
        0 0).2 = (match lastErrFrom none [ModelOutcome.err "boom"] with
          | some e => .error e
          | none => .ok ()) ∧
      (generateObject { emptyEnv with oracle := [.err "boom"] } "text" gpB
        0 0).1.oracle = [] ∧
      (generateObject { emptyEnv with oracle := [.err "boom"] } "text" gpB
        0 0).1.cancelled = { emptyEnv with oracle := [.err "boom"] }.cancelled
        ++ [("p", match lastErrFrom none [ModelOutcome.err "boom"] with
          | some e => "Object generation failed: " ++ e
          | none => "Failed to generate object")] ∧
      (generateObject { emptyEnv with oracle := [.err "boom"] } "text" gpB
        0 0).1.emitted = { emptyEnv with oracle := [.err "boom"] }.emitted) :=
  ⟨C8_generateObject_policy.1 { emptyEnv with oracle := [.msg mBad, .msg mGood] }
      "text" gpA [ModelOutcome.msg mBad] mGood [] "ok" 10 20 rfl (by decide)
      (by decide) rfl rfl (by decide),
   C8_generateObject_policy.2 { emptyEnv with oracle := [.err "boom"] }
      "text" gpB [ModelOutcome.err "boom"] [] 0 0 rfl (by decide) (by decide)⟩

theorem clearTimeoutTimer_nextTimer (env : Env) (e : String) :
    (clearTimeoutTimer env e).nextTimer = env.nextTimer := by
  unfold clearTimeoutTimer
  split <;> rfl

/-- The incomplete-aggregation path of the async-result handler: store one
fragment, find the expected set still incomplete, re-register a timeout and
return. -/
theorem onInternalMessage_incomplete (env : Env)
    (apiKey blockId e tid res : String) (cs : CallState)
    (hlock : isTimerLocked env.kv e = false)
    (hcs : loadCallStateE env.kv e = .ok cs)
    (hinc : (loadToolResults (storeToolResult env.kv e tid res cs.turn) e
      cs.turn cs.toolCallIds).haveAllResults = false) :
    onInternalMessage env apiKey blockId e tid res =
      (setTimeoutTimer
        { clearTimeoutTimer env e with
            kv := storeToolResult env.kv e tid res cs.turn } e, .ok ()) := by
  simp only [onInternalMessage, hlock, Bool.false_eq_true, if_false]
  rw [hcs]
  rw [clearTimeoutTimer_kv]
  simp only [hinc, Bool.false_eq_true, if_false]

/-- C2 counterexample: the handler is not idempotent with respect to
resumption.  Delivering the one outstanding result resumes the turn once;
delivering the identical message again (same eventId, turn, toolCallId and
payload) resumes the turn a second time — `continueTurn` runs again and a
second result event is emitted. -/
theorem C2_counterexample :
    (onInternalMessage envSusA "k" "b" "e" "t1" "42").1.continueCalls = 1 ∧
    (onInternalMessage (onInternalMessage envSusA "k" "b" "e" "t1" "42").1
      "k" "b" "e" "t1" "42").1.continueCalls = 2 ∧
    (onInternalMessage (onInternalMessage envSusA "k" "b" "e" "t1" "42").1
      "k" "b" "e" "t1" "42").1.emitted.length = 2 := by
  refine ⟨by decide, by decide, by decide⟩

/-- C2 amended: while the expected results remain incomplete after storing
the fragment, a duplicate delivery of the same (eventId, turn, toolCallId,
payload) is idempotent: the second invocation stores nothing new, performs
no resumption and emits nothing, and the aggregated result map is unchanged
(once the results are complete, however, each duplicate delivery resumes the
turn again — see the counterexample). -/
theorem C2_duplicate_delivery (env : Env)
    (apiKey blockId e tid res : String) (cs : CallState)
    (hlock : isTimerLocked env.kv e = false)
    (hcs : loadCallStateE env.kv e = .ok cs)
    (hinc : (loadToolResults (storeToolResult env.kv e tid res cs.turn) e
      cs.turn cs.toolCallIds).haveAllResults = false) :
    (onInternalMessage env apiKey blockId e tid res).2 = .ok () ∧
    (onInternalMessage (onInternalMessage env apiKey blockId e tid res).1
      apiKey blockId e tid res).2 = .ok () ∧
    (onInternalMessage (onInternalMessage env apiKey blockId e tid res).1
      apiKey blockId e tid res).1.continueCalls = env.continueCalls ∧
    (onInternalMessage (onInternalMessage env apiKey blockId e tid res).1
      apiKey blockId e tid res).1.emitted = env.emitted ∧
    loadToolResults (onInternalMessage (onInternalMessage env apiKey blockId
      e tid res).1 apiKey blockId e tid res).1.kv e cs.turn cs.toolCallIds =
      loadToolResults (onInternalMessage env apiKey blockId e tid
        res).1.kv e cs.turn cs.toolCallIds := by
  have hr1 := onInternalMessage_incomplete env apiKey blockId e tid res cs
    hlock hcs hinc
  have hkv1 : (onInternalMessage env apiKey blockId e tid res).1.kv =
      kvSet (storeToolResult env.kv e tid res cs.turn) (timerKey e)
        (Val.timerId (clearTimeoutTimer env e).nextTimer) := by
    rw [hr1]
    rfl
  have habsorb : storeToolResult (onInternalMessage env apiKey blockId e tid
      res).1.kv e tid res cs.turn = (onInternalMessage env apiKey blockId e
      tid res).1.kv := by
    rw [hkv1]
    exact upsert_absorb_after_ne env.kv (resKey e cs.turn tid) (timerKey e)
      (Val.frag tid res) (Val.timerId (clearTimeoutTimer env e).nextTimer)
      (fun hc => timerKey_ne_resKey e e cs.turn tid hc.symm)
  have hlock2 : isTimerLocked (onInternalMessage env apiKey blockId e tid
      res).1.kv e = false := by
    rw [hkv1, isTimerLocked_kvSet_ne _ _ _ e
      (fun hc => timerKey_ne_lockKey e e hc.symm)]
    show isTimerLocked (kvSet env.kv (resKey e cs.turn tid) _) e = false
    rw [isTimerLocked_kvSet_ne _ _ _ e
      (fun hc => resKey_ne_lockKey e cs.turn tid e hc.symm)]
    exact hlock
  have hcs2 : loadCallStateE (onInternalMessage env apiKey blockId e tid
      res).1.kv e = .ok cs := by
    rw [hkv1, loadCallStateE_kvSet_ne _ _ _ e
      (fun hc => timerKey_ne_callKey e e hc.symm)]
    show loadCallStateE (kvSet env.kv (resKey e cs.turn tid) _) e = .ok cs
    rw [loadCallStateE_kvSet_ne _ _ _ e
      (fun hc => resKey_ne_callKey e cs.turn tid e hc.symm)]
    exact hcs
  have hagg1 : loadToolResults (onInternalMessage env apiKey blockId e tid
      res).1.kv e cs.turn cs.toolCallIds =
      loadToolResults (storeToolResult env.kv e tid res cs.turn) e cs.turn
        cs.toolCallIds := by
    rw [hkv1]
    exact loadToolResults_kvSet_not_pre _ _ _ e cs.turn cs.toolCallIds
      (resPre_not_prefix_timerKey e cs.turn e)
  have hinc2 : (loadToolResults (storeToolResult (onInternalMessage env
      apiKey blockId e tid res).1.kv e tid res cs.turn) e cs.turn
      cs.toolCallIds).haveAllResults = false := by
    rw [habsorb, hagg1]
    exact hinc
  have hr2 := onInternalMessage_incomplete (onInternalMessage env apiKey
    blockId e tid res).1 apiKey blockId e tid res cs hlock2 hcs2 hinc2
  refine ⟨by rw [hr1], by rw [hr2], ?_, ?_, ?_⟩
  · rw [hr2]
    show (clearTimeoutTimer (onInternalMessage env apiKey blockId e tid
      res).1 e).continueCalls = env.continueCalls
    rw [clearTimeoutTimer_continueCalls, hr1]
    show (clearTimeoutTimer env e).continueCalls = env.continueCalls
    exact clearTimeoutTimer_continueCalls env e
  · rw [hr2]
    show (clearTimeoutTimer (onInternalMessage env apiKey blockId e tid
      res).1 e).emitted = env.emitted
    rw [clearTimeoutTimer_emitted, hr1]
    show (clearTimeoutTimer env e).emitted = env.emitted
    exact clearTimeoutTimer_emitted env e
  · rw [hr2]
    show loadToolResults (kvSet (storeToolResult (onInternalMessage env
      apiKey blockId e tid res).1.kv e tid res cs.turn) (timerKey e) _) e
      cs.turn cs.toolCallIds = _
    rw [loadToolResults_kvSet_not_pre _ _ _ e cs.turn cs.toolCallIds
      (resPre_not_prefix_timerKey e cs.turn e), habsorb]

/-- C2 witness: a duplicate delivery of result "42" for tool call "t1" while
"t2" is still outstanding changes nothing. -/
theorem C2_duplicate_delivery_witness :
    (onInternalMessage envSusB "k" "b" "e" "t1" "42").2 = .ok () ∧
    (onInternalMessage (onInternalMessage envSusB "k" "b" "e" "t1" "42").1
      "k" "b" "e" "t1" "42").2 = .ok () ∧
    (onInternalMessage (onInternalMessage envSusB "k" "b" "e" "t1" "42").1
      "k" "b" "e" "t1" "42").1.continueCalls = envSusB.continueCalls ∧
    (onInternalMessage (onInternalMessage envSusB "k" "b" "e" "t1" "42").1
      "k" "b" "e" "t1" "42").1.emitted = envSusB.emitted ∧
    loadToolResults (onInternalMessage (onInternalMessage envSusB "k" "b"
      "e" "t1" "42").1 "k" "b" "e" "t1" "42").1.kv "e" csB.turn
      csB.toolCallIds =
      loadToolResults (onInternalMessage envSusB "k" "b" "e" "t1"
        "42").1.kv "e" csB.turn csB.toolCallIds :=
  C2_duplicate_delivery envSusB "k" "b" "e" "t1" "42" csB rfl rfl (by decide)
